import Mathlib

/-!
# go-again: the retry policy and its executor

A shallow embedding of `src/specification.go` and `src/retry.go`.

* Go `error` values are `Option GoError` (`none` is `nil`).
* Two things the sources do not pin are parameters: `unwrapAtStop`, in which go-retry
  versions differ, and the addresses at which new error objects are allocated.
* `time.Duration` is an `Int` number of nanoseconds, `uint64` is a `Nat`.
* The closures handed to the policy are state transformers: the operation and the
  fallback (both of Go type `Tryable`) act on a state `σ`, the error handler acts on
  a state `ω` of its own.
* Every call the executor makes is appended to a trace of `Event`s, which is how
  "the operation was invoked k times" is read off a run.
* The loop of the imported package `github.com/sethvargo/go-retry` has no bound of
  its own, so `Do` takes a number of iterations it may run and answers `none` when
  that number is used up.
* `Specification` holds the no-retry set as the list of its elements, which is all
  `Try` reads; `Memory.Specification` holds it as a Go slice over a backing array,
  which is what `DontRetryOn` and `append` work on.
-/

namespace GoAgain

/-! ## Error values -/

/-- Non-nil Go error values. Go compares two error values with `==` by their
dynamic type and value: for a pointer that is the address of the object, for a
comparable value type it is the value itself; equality of terms plays that role
here. Error values of a type that cannot be compared, on which `==` panics, are
left out.
* `errorString` is a pointer to an error without a `Cause` or `Unwrap` method
  (`errors.New`, `fmt.Errorf`), at address `addr`;
* `withStack` is what `errors.Wrap` of `github.com/pkg/errors` allocates; its
  `Cause` and (from v0.9.0 of that package) `Unwrap` methods give the wrapped error;
* `retryableError` is the marker that `RetryableError` of go-retry allocates
  around an error; its `Unwrap` method gives that error and it has no `Cause`
  method;
* `value` is an error of a comparable value type without those methods, such as
  `syscall.Errno`: it has no address, only the name of its type and its value. -/
inductive GoError where
  | errorString (addr : Nat) (msg : String)
  | withStack (addr : Nat) (cause : GoError) (msg : String)
  | retryableError (addr : Nat) (err : GoError)
  | value (type : String) (code : Nat)
deriving DecidableEq, Repr

/-- Address of the object an error value points to, if it is a pointer. -/
def GoError.addr : GoError → Option Nat
  | .errorString a _ => some a
  | .withStack a _ _ => some a
  | .retryableError a _ => some a
  | .value _ _ => none

/-- End of the chain of `Cause` methods that starts at an error. -/
def GoError.root : GoError → GoError
  | .errorString a m => .errorString a m
  | .withStack _ c _ => c.root
  | .retryableError a e => .retryableError a e
  | .value t c => .value t c

/-- Library `errors.As(err, &rerr)` for go-retry's marker type: the error inside
the first marker on the chain of `Unwrap` methods that starts at an error, if
there is a marker on it. -/
def GoError.marked : GoError → Option GoError
  | .errorString _ _ => none
  | .withStack _ c _ => c.marked
  | .retryableError _ e => some e
  | .value _ _ => none

namespace errors

/-- Library `errors.Cause` of the imported package `github.com/pkg/errors` (the
unwrapping to the root cause of step 3c of the executor in the specification):
follow `Cause()` while the error has that method; `nil` stays `nil`. -/
def Cause (err : Option GoError) : Option GoError :=
  match err with
  | none => none
  | some e => some e.root

/-- Library `errors.Wrap` of the imported package `github.com/pkg/errors`: `nil`
for a `nil` error, else a new object at address `addr` that carries the message
and has the wrapped error as its cause. -/
def Wrap (err : Option GoError) (message : String) (addr : Nat) : Option GoError :=
  match err with
  | none => none
  | some e => some (.withStack addr e message)

end errors

/-! ## The trace of a run -/

/-- Calls made by the executor, in the order they happen. -/
inductive Event where
  | attempt (result : Option GoError)
  | handler (err : Option GoError)
  | sleep (d : Int)
  | fallback (result : Option GoError)
deriving DecidableEq, Repr

/-- State of a run: what the operation and the fallback close over, what the
error handler closes over, and the calls made so far. -/
structure World (σ ω : Type) where
  st : σ
  obs : ω
  trace : List Event

/-- Append an event to the trace. -/
def World.record {σ ω : Type} (w : World σ ω) (e : Event) : World σ ω :=
  { w with trace := w.trace ++ [e] }

/-! ## The imported package go-retry -/

/-- Interface `Backoff` of the imported package `github.com/sethvargo/go-retry`:
a state and the method `Next`, which gives the next wait and whether to stop. -/
structure Backoff (β : Type) where
  state : β
  Next : β → (Int × Bool) × β

/-- Value of an `int64` computation after wrap-around. -/
def wrapInt64 (x : Int) : Int :=
  (x + 2 ^ 63) % 2 ^ 64 - 2 ^ 63

/-- Method `Next` of go-retry's Fibonacci backoff: the `int64` sum of the two
stored durations, which becomes the second of the two stored next; it never
stops, and a sum that overflows wraps around. -/
def fibonacciNext (st : Int × Int) : (Int × Bool) × (Int × Int) :=
  let next := wrapInt64 (st.1 + st.2)
  ((next, false), (st.2, next))

/-- Library `NewFibonacci` of go-retry (step 1 of the executor in the
specification): an error when the base is not positive (allocated at `addr`),
else the backoff whose state starts at `(0, base)`. -/
def NewFibonacci (base : Int) (addr : Nat) : Except GoError (Backoff (Int × Int)) :=
  if base ≤ 0 then .error (.errorString addr "base must be greater than 0")
  else .ok { state := (0, base), Next := fibonacciNext }

/-- Library `WithMaxRetries` of go-retry (the retry budget of step 3 of the
executor in the specification): a backoff that counts in its first component,
`attempt`, the calls it passed on to the inner backoff and stops once there
were `max` of them. -/
def WithMaxRetries {β : Type} (max : Nat) (next : Backoff β) : Backoff (Nat × β) where
  state := (0, next.state)
  Next := fun st =>
    if st.1 ≥ max then ((0, true), st)
    else
      match next.Next st.2 with
      | ((_, true), b) => ((0, true), (st.1 + 1, b))
      | ((val, false), b) => ((val, false), (st.1 + 1, b))

/-- Library `RetryableError` of go-retry: `nil` stays `nil`, any other error is
put inside a new marker, allocated at `addr`. -/
def RetryableError (err : Option GoError) (addr : Nat) : Option GoError :=
  match err with
  | none => none
  | some e => some (.retryableError addr e)

/-- Library `Do` of go-retry, run under `context.Background()` (the attempt loop
of step 3 of the executor in the specification): call `f`; return `nil` on
success; return the error itself when `errors.As` finds no marker on it; else ask
the backoff, and when it says stop return the error (go-retry v0.1.0) or the error
inside the marker (later versions, `unwrapAtStop`), else wait and go round again.
The argument before the state of the backoff bounds the number of rounds. -/
def Do {σ ω β : Type} (unwrapAtStop : Bool) (b : Backoff β)
    (f : World σ ω → Option GoError × World σ ω) :
    Nat → β → World σ ω → Option (Option GoError × World σ ω)
  | 0, _, _ => none
  | fuel + 1, st, w =>
    match f w with
    | (none, w1) => some (none, w1)
    | (some err, w1) =>
      match err.marked with
      | none => some (some err, w1)
      | some inner =>
        match b.Next st with
        | ((_, true), _) => some (some (if unwrapAtStop then inner else err), w1)
        | ((next, false), st1) => Do unwrapAtStop b f fuel st1 (w1.record (.sleep next))

/-! ## The policy (`src/specification.go`, `src/retry.go`) -/

/-- Go type `Tryable`, a `func() error` over the state it closes over. -/
abbrev Tryable (σ : Type) := σ → Option GoError × σ

/-- Go type `ErrorFunc`, a `func(err error)` over the state it closes over. -/
abbrev ErrorFunc (ω : Type) := Option GoError → ω → ω

/-- Go struct `Specification`. -/
structure Specification (σ ω : Type) where
  fallback : Option (Tryable σ)
  attemptErrorHandler : Option (ErrorFunc ω)
  maxRetries : Nat
  startDelay : Int
  dontRetryErrorSet : List (Option GoError)

namespace Specification

variable {σ ω : Type}

/-- Go `Configure`: one retry, a start delay of one second, nothing else set. -/
def Configure : Specification σ ω :=
  { fallback := none, attemptErrorHandler := none, maxRetries := 1,
    startDelay := 1 * 1000000000, dontRetryErrorSet := [] }

/-- Go `WithMaxRetries`. -/
def WithMaxRetries (s : Specification σ ω) (retries : Nat) : Specification σ ω :=
  { s with maxRetries := retries }

/-- Go `FirstRetryDelay`. -/
def FirstRetryDelay (s : Specification σ ω) (t : Int) : Specification σ ω :=
  { s with startDelay := t }

/-- Go `DontRetryOn`, on the contents of the no-retry set: what the returned
policy holds when the call returns. The slice behind the set and the backing
array it shares are in `Memory.Specification.DontRetryOn`. -/
def DontRetryOn (s : Specification σ ω) (err : List (Option GoError)) : Specification σ ω :=
  { s with dontRetryErrorSet := s.dontRetryErrorSet ++ err }

/-- Go `WithFallBack`. -/
def WithFallBack (s : Specification σ ω) (fallback : Option (Tryable σ)) : Specification σ ω :=
  { s with fallback := fallback }

/-- Go `OnAttemptFailure`. -/
def OnAttemptFailure (s : Specification σ ω) (errorHandler : Option (ErrorFunc ω)) :
    Specification σ ω :=
  { s with attemptErrorHandler := errorHandler }

/-- The loop over `dontRetryErrorSet` in `Try`: does some member equal the cause
of the error? -/
def dontRetry (s : Specification σ ω) (err : GoError) : Bool :=
  s.dontRetryErrorSet.any (fun errType => decide (errors.Cause (some err) = errType))

/-- The closure `retryLibFunction` of `Try`; the marker it makes is allocated at
`markerAddr`. -/
def retryLibFunction (s : Specification σ ω) (functionToRetry : Tryable σ) (markerAddr : Nat)
    (w : World σ ω) : Option GoError × World σ ω :=
  match functionToRetry w.st with
  | (none, st1) => (none, { w with st := st1, trace := w.trace ++ [.attempt none] })
  | (some err, st1) =>
    let w1 : World σ ω := { w with st := st1, trace := w.trace ++ [.attempt (some err)] }
    if s.dontRetry err then (some err, w1)
    else
      let w2 : World σ ω :=
        match s.attemptErrorHandler with
        | none => w1
        | some h => { w1 with obs := h (some err) w1.obs, trace := w1.trace ++ [.handler (some err)] }
      (RetryableError (some err) markerAddr, w2)

/-- Go `Try`. `unwrapAtStop` is the version of go-retry (see `Do`), `fuel` bounds
the rounds of `Do`; `fresh` is the address at which `errors.Wrap` allocates the
error this call makes, the error of `NewFibonacci` goes to `fresh + 1` and the
markers of the closure to `fresh + 2`. -/
def Try (s : Specification σ ω) (functionToRetry : Tryable σ) (unwrapAtStop : Bool)
    (fuel : Nat) (st : σ) (obs : ω) (fresh : Nat) : Option (Option GoError × World σ ω) :=
  match NewFibonacci s.startDelay (fresh + 1) with
  | .error err =>
    some (errors.Wrap (some err)
      "fibonacci start delay must be greater than 0, no attempt was made" fresh,
      { st := st, obs := obs, trace := [] })
  | .ok fib =>
    let retrySpec := GoAgain.WithMaxRetries s.maxRetries fib
    match Do unwrapAtStop retrySpec (s.retryLibFunction functionToRetry (fresh + 2)) fuel
        retrySpec.state { st := st, obs := obs, trace := [] } with
    | none => none
    | some (err, w) =>
      match err, s.fallback with
      | some _, some fb =>
        match fb w.st with
        | (res, st1) =>
          some (errors.Wrap res "error in fallback" fresh,
            { w with st := st1, trace := w.trace ++ [.fallback res] })
      | _, _ => some (err, w)

end Specification

/-! ## Reading a run -/

/-- Results of the invocations of the operation, in order. -/
def results (t : List Event) : List (Option GoError) :=
  t.filterMap fun ev => match ev with
    | .attempt r => some r
    | _ => none

/-- Number of invocations of the operation. -/
def attempts (t : List Event) : Nat :=
  (results t).length

/-- Arguments of the calls of the error handler, in order. -/
def handled (t : List Event) : List (Option GoError) :=
  t.filterMap fun ev => match ev with
    | .handler e => some e
    | _ => none

/-- Results of the invocations of the fallback, in order. -/
def fallbackResults (t : List Event) : List (Option GoError) :=
  t.filterMap fun ev => match ev with
    | .fallback r => some r
    | _ => none

/-- Number of invocations of the fallback. -/
def fallbacks (t : List Event) : Nat :=
  (fallbackResults t).length

/-- Waits between attempts, in order. -/
def sleeps (t : List Event) : List Int :=
  t.filterMap fun ev => match ev with
    | .sleep d => some d
    | _ => none

/-- Is this result of an invocation a failure whose cause is outside the
no-retry set of the policy? -/
def retryable {σ ω : Type} (s : Specification σ ω) (r : Option GoError) : Bool :=
  match r with
  | none => false
  | some e => !s.dontRetry e

/-- Errors of the failed invocations whose cause is outside the no-retry set, as
the operation returned them and in order. -/
def retried {σ ω : Type} (s : Specification σ ω) (t : List Event) : List (Option GoError) :=
  (results t).filter (retryable s)

/-- The words "a failed invocation whose cause is not in the no-retry set", read
off the set itself: the result is an error and the end of its chain of causes is
no member of the set (as Go's `==` compares them). -/
def failedOutsideSet {σ ω : Type} (s : Specification σ ω) (r : Option GoError) : Bool :=
  match r with
  | none => false
  | some e => decide (errors.Cause (some e) ∉ s.dontRetryErrorSet)

/-- Does `Do` ask the backoff for another round after an invocation with result
`r`? It does when the closure of `Try` marks the error, and when the closure
returns the error as it is but the error has a marker of its own. -/
def asksBackoff {σ ω : Type} (s : Specification σ ω) (r : Option GoError) : Bool :=
  match r with
  | none => false
  | some e => !s.dontRetry e || e.marked.isSome

/-- What the closure of `Try` returns to `Do` for an invocation with result `r`:
`nil`, the error itself when its cause is in the no-retry set, else the error
inside a marker at `markerAddr`. -/
def returned {σ ω : Type} (s : Specification σ ω) (markerAddr : Nat) (r : Option GoError) :
    Option GoError :=
  match r with
  | none => none
  | some e => if s.dontRetry e then some e else RetryableError (some e) markerAddr

/-- What `Do` returns when the invocation with result `r` is the last one of the
run: what the closure returned, or, with `unwrapAtStop`, the error inside the
marker on it. -/
def loopResult {σ ω : Type} (s : Specification σ ω) (unwrapAtStop : Bool) (markerAddr : Nat)
    (r : Option GoError) : Option GoError :=
  match returned s markerAddr r with
  | none => none
  | some x =>
    match x.marked with
    | none => some x
    | some inner => some (if unwrapAtStop then inner else x)

/-- State the operation closes over after `i` invocations in a row. -/
def stateAfter {σ : Type} (f : Tryable σ) (st : σ) : Nat → σ
  | 0 => st
  | i + 1 => (f (stateAfter f st i)).2

/-- Result of invocation number `i` (from 0) of the operation. -/
def outcome {σ : Type} (f : Tryable σ) (st : σ) (i : Nat) : Option GoError :=
  (f (stateAfter f st i)).1

/-! ## The helper of `src/retry_test.go` -/

/-- Go `failNTimes` of the tests: an operation over its run count that fails its
first `n` calls, with `errorToReturn` when that is not `nil` and else with a newly
made error (put at the address `1000 + runCount`). -/
def failNTimes (n : Int) (errorToReturn : Option GoError) : Tryable Int :=
  fun runCount =>
    let runCount := runCount + 1
    if runCount ≤ n then
      match errorToReturn with
      | some e => (some e, runCount)
      | none =>
        (some (.errorString (1000 + runCount.toNat) ("attempt number " ++ toString runCount)),
          runCount)
    else (none, runCount)

/-! ## Values of the tests -/

/-- Policy built by every test:
`retry.Configure().FirstRetryDelay(1 * time.Millisecond).WithMaxRetries(1)`. -/
def testPolicy : Specification Int (List (Option GoError)) :=
  (Specification.Configure.FirstRetryDelay (1 * 1000000)).WithMaxRetries 1

/-- Value `errorNotToRetryOn` of `TestFailFastOnSpecificErrors`. -/
def errorNotToRetryOn : GoError :=
  .errorString 1 "error not to retry on"

/-- An error handler that keeps what it is called with, like `errorHandler` of
`TestErrorHandlerFunctionIsCalled`. -/
def errorHandler : ErrorFunc (List (Option GoError)) :=
  fun err received => received ++ [err]

/-- A fallback that returns `result` and leaves the state alone. -/
def fallbackReturning (result : Option GoError) : Tryable Int :=
  fun st => (result, st)

/-- Policy of `TestFailFastOnSpecificErrors`: the policy of the tests with
`DontRetryOn(errorNotToRetryOn)`. -/
def failFastPolicy : Specification Int (List (Option GoError)) :=
  testPolicy.DontRetryOn [some errorNotToRetryOn]

/-- The policy of `TestFailFastOnSpecificErrors` with a fallback that succeeds
added by `WithFallBack`. -/
def failFastFallbackPolicy : Specification Int (List (Option GoError)) :=
  failFastPolicy.WithFallBack (some (fallbackReturning none))

/-- Policy of `TestFallBackFunctionIsCalled` with a fallback that returns
`result`. -/
def fallbackPolicy (result : Option GoError) : Specification Int (List (Option GoError)) :=
  testPolicy.WithFallBack (some (fallbackReturning result))

/-- A policy with four retries that does not retry on `errorNotToRetryOn` and
whose fallback fails with that very error. -/
def failingFallbackPolicy : Specification Int (List (Option GoError)) :=
  ((testPolicy.WithMaxRetries 4).DontRetryOn [some errorNotToRetryOn]).WithFallBack
    (some (fallbackReturning (some errorNotToRetryOn)))

/-- Policy of `TestErrorHandlerFunctionIsCalled`. -/
def handlerPolicy : Specification Int (List (Option GoError)) :=
  testPolicy.OnAttemptFailure (some errorHandler)

/-- An operation over the number of its calls that returns the listed results
one call after the other, and `nil` from then on. -/
def scripted (outcomes : List (Option GoError)) : Tryable Int :=
  fun calls => (outcomes.getD calls.toNat none, calls + 1)

/-- An error of the operation that is in no no-retry set of the examples. -/
def otherError : GoError :=
  .errorString 2 "some other error"

/-- Policy of `TestErrorHandlerFunctionIsCalled` with `DontRetryOn(errorNotToRetryOn)`
and two retries. -/
def handlerFailFastPolicy : Specification Int (List (Option GoError)) :=
  (handlerPolicy.WithMaxRetries 2).DontRetryOn [some errorNotToRetryOn]

/-- The value of `retry.RetryableError(errors.New("marked"))`, go-retry's marker
made by the caller of this package. -/
def markedError : GoError :=
  .retryableError 7 (.errorString 8 "marked")

/-- The policy of the tests with two retries and `DontRetryOn(markedError)`. -/
def markedPolicy : Specification Int (List (Option GoError)) :=
  (testPolicy.WithMaxRetries 2).DontRetryOn [some markedError]

/-- State of a backoff after `i` calls of `Next` from state `st`. -/
def Backoff.stateAt {β : Type} (b : Backoff β) (st : β) : Nat → β
  | 0 => st
  | i + 1 => (b.Next (Backoff.stateAt b st i)).2

/-- Wait that call number `i` (from 0) of `Next` gives, from state `st`. -/
def Backoff.waitAt {β : Type} (b : Backoff β) (st : β) (i : Nat) : Int :=
  (b.Next (Backoff.stateAt b st i)).1.1

/-- Calls of the error handler that follow an invocation with result `r`: one,
with `r`, when a handler is configured and `r` is a failure whose cause is outside
the no-retry set. -/
def handlerEvents {σ ω : Type} (s : Specification σ ω) (r : Option GoError) : List Event :=
  match s.attemptErrorHandler with
  | none => []
  | some _ => if retryable s r then [.handler r] else []

/-- An invocation with result `r` and the calls of the handler that follow it. -/
def attemptEvents {σ ω : Type} (s : Specification σ ω) (r : Option GoError) : List Event :=
  .attempt r :: handlerEvents s r

/-- The events `g 0`, `g 1`, up to `g (k - 1)`, one after the other. -/
def rounds (g : Nat → List Event) : Nat → List Event
  | 0 => []
  | k + 1 => g 0 ++ rounds (fun i => g (i + 1)) k

/-- Waits of go-retry's Fibonacci backoff started at `d`, as a sequence: `d`,
`d + d`, and from then on the sum of the two waits before, the sums being `int64`
additions. -/
def fibonacciWait (d : Int) : Nat → Int
  | 0 => d
  | 1 => wrapInt64 (d + d)
  | k + 2 => wrapInt64 (fibonacciWait d (k + 1) + fibonacciWait d k)

/-- The delay law in the words of the specification: `delay(0) = d`,
`delay(1) = d`, `delay(k) = delay(k-1) + delay(k-2)`. -/
def specDelay (d : Int) : Nat → Int
  | 0 => d
  | 1 => d
  | k + 2 => specDelay d (k + 1) + specDelay d k

/-- The two durations go-retry's Fibonacci backoff stores after `k` calls of
`Next` from the base `d`. -/
def fibonacciState (d : Int) : Nat → Int × Int
  | 0 => (0, d)
  | k + 1 => ((fibonacciState d k).2, wrapInt64 ((fibonacciState d k).1 + (fibonacciState d k).2))

/-- The policy of the tests with two retries. -/
def twoRetriesPolicy : Specification Int (List (Option GoError)) :=
  testPolicy.WithMaxRetries 2

/-! ## The no-retry set in memory -/

/-- A Go slice of errors: the address of its backing array, its length and its
capacity. The nil slice has length and capacity 0. -/
structure Slice where
  array : Nat
  len : Nat
  cap : Nat
deriving DecidableEq, Repr

/-- The backing arrays of the slices: the array at address `a` is entry `a`. -/
abbrev Heap := List (List (Option GoError))

/-- Elements of a slice: the first `len` cells of its backing array. -/
def Slice.elems (sl : Slice) (h : Heap) : List (Option GoError) :=
  (h.getD sl.array []).take sl.len

/-- A slice fits the memory: its length is within its capacity and its backing
array has at least that many cells. -/
def Slice.valid (sl : Slice) (h : Heap) : Prop :=
  sl.len ≤ sl.cap ∧ sl.cap ≤ (h.getD sl.array []).length

/-- Size classes of the allocator of the Go runtime, in bytes. -/
def sizeClasses : List Nat :=
  [8, 16, 24, 32, 48, 64, 80, 96, 112, 128, 144, 160, 176, 192, 208, 224, 240, 256, 288, 320,
   352, 384, 416, 448, 480, 512, 576, 640, 704, 768, 896, 1024, 1152, 1280, 1408, 1536, 1792,
   2048, 2304, 2688, 3072, 3200, 3456, 4096, 4864, 5120, 5376, 6144, 6528, 6784, 6912, 8192,
   9472, 9728, 10240, 10880, 12288, 13568, 14336, 16384, 18432, 19072, 20480, 21760, 24576,
   27264, 28672, 32768]

/-- Runtime `roundupsize`: the bytes the allocator hands out for a request of
`size` bytes, the first size class that holds it or, above the largest class, the
next multiple of the page size. -/
def roundupsize (size : Nat) : Nat :=
  match sizeClasses.find? (fun c => decide (size ≤ c)) with
  | some c => c
  | none => (size + 8191) / 8192 * 8192

/-- The loop of runtime `growslice` for a slice of 256 elements or more: add a
quarter of the capacity and 192 until the length needed is reached. The first
argument bounds the rounds. -/
def growLoop : Nat → Nat → Nat → Nat
  | 0, newcap, _ => newcap
  | k + 1, newcap, needed =>
    if newcap < needed then growLoop k (newcap + (newcap + 3 * 256) / 4) needed else newcap

/-- Capacity the Go runtime (`growslice`, Go 1.18 and later, 64-bit) gives a slice
of errors that `append` has to grow: the length needed when that is more than
twice the old capacity, else twice the old capacity below 256 elements and the
result of `growLoop` from there on; then rounded up to what the allocator hands
out, an error value taking 16 bytes. -/
def growCap (oldCap needed : Nat) : Nat :=
  roundupsize (16 * (if 2 * oldCap < needed then needed
    else if oldCap < 256 then 2 * oldCap
    else growLoop needed oldCap needed)) / 16

/-- Go builtin `append` on a slice of errors: when the capacity is enough the new
elements are written into the backing array the slice already has, after its
`len` cells, and the slice returned shares that array; else a new array is
allocated (at the next free address), the elements copied and the new ones put
after them. -/
def Slice.append (sl : Slice) (h : Heap) (elems : List (Option GoError)) : Slice × Heap :=
  if sl.len + elems.length ≤ sl.cap then
    ({ sl with len := sl.len + elems.length },
      h.set sl.array ((h.getD sl.array []).take sl.len ++ elems
        ++ (h.getD sl.array []).drop (sl.len + elems.length)))
  else
    ({ array := h.length, len := sl.len + elems.length,
       cap := growCap sl.cap (sl.len + elems.length) },
      h ++ [sl.elems h ++ elems
        ++ List.replicate (growCap sl.cap (sl.len + elems.length) - (sl.len + elems.length)) none])

namespace Memory

/-- Go struct `Specification` as the value a variable holds: the field
`dontRetryErrorSet` is a slice, whose elements lie in a backing array. -/
structure Specification (σ ω : Type) where
  fallback : Option (Tryable σ)
  attemptErrorHandler : Option (ErrorFunc ω)
  maxRetries : Nat
  startDelay : Int
  dontRetryErrorSet : Slice

/-- The policy a stored value stands for when the memory is `h`: the no-retry set
is read from the backing array. -/
def Specification.load {σ ω : Type} (s : Memory.Specification σ ω) (h : Heap) :
    GoAgain.Specification σ ω :=
  { fallback := s.fallback, attemptErrorHandler := s.attemptErrorHandler,
    maxRetries := s.maxRetries, startDelay := s.startDelay,
    dontRetryErrorSet := s.dontRetryErrorSet.elems h }

/-- Go `Configure`: the slice field is left nil. -/
def Configure {σ ω : Type} : Memory.Specification σ ω :=
  { fallback := none, attemptErrorHandler := none, maxRetries := 1,
    startDelay := 1 * 1000000000, dontRetryErrorSet := { array := 0, len := 0, cap := 0 } }

/-- Go `DontRetryOn`: `s.dontRetryErrorSet = append(s.dontRetryErrorSet, err...)` on
the copy `s` of the receiver, which is returned; the memory after the call comes
with it. -/
def Specification.DontRetryOn {σ ω : Type} (s : Memory.Specification σ ω) (h : Heap)
    (err : List (Option GoError)) : Memory.Specification σ ω × Heap :=
  ({ s with dontRetryErrorSet := (s.dontRetryErrorSet.append h err).1 },
    (s.dontRetryErrorSet.append h err).2)

/-- The two calls `a := p.DontRetryOn(e)` and then `b := p.DontRetryOn(f)` on one
policy `p`: the values of `a` and `b` and the memory after both calls. -/
def branchTwice {σ ω : Type} (p : Memory.Specification σ ω) (h : Heap) (e f : Option GoError) :
    Memory.Specification σ ω × Memory.Specification σ ω × Heap :=
  ((p.DontRetryOn h [e]).1, (p.DontRetryOn (p.DontRetryOn h [e]).2 [f]).1,
    (p.DontRetryOn (p.DontRetryOn h [e]).2 [f]).2)

/-- An error value made by `errors.New`, at address `n`. -/
def sentinel (n : Nat) : Option GoError :=
  some (.errorString n "sentinel")

/-- The policy `retry.Configure().DontRetryOn(e1)`, built in an empty memory, with
the memory after the call. -/
def templateOne : Memory.Specification Int (List (Option GoError)) × Heap :=
  Specification.DontRetryOn Configure [] [sentinel 11]

/-- The policy `retry.Configure().DontRetryOn(e1).DontRetryOn(e2)` and the memory
after the calls. -/
def templateTwo : Memory.Specification Int (List (Option GoError)) × Heap :=
  templateOne.1.DontRetryOn templateOne.2 [sentinel 12]

/-- The template
`retry.Configure().DontRetryOn(e1).DontRetryOn(e2).DontRetryOn(e3)` and the
memory after the three calls. -/
def template : Memory.Specification Int (List (Option GoError)) × Heap :=
  templateTwo.1.DontRetryOn templateTwo.2 [sentinel 13]

end Memory

end GoAgain

/-! ## Lemmas on the readers of a run and on the library -/

namespace GoAgain
open Specification
variable {σ ω β : Type}

theorem stateAfter_succ_left (f : Tryable σ) (st : σ) (i : Nat) :
    stateAfter f st (i + 1) = stateAfter f (f st).2 i := by
  induction i with
  | zero => rfl
  | succ i ih =>
    show (f (stateAfter f st (i + 1))).2 = (f (stateAfter f (f st).2 i)).2
    rw [ih]

theorem outcome_succ_left (f : Tryable σ) (st : σ) (i : Nat) :
    outcome f st (i + 1) = outcome f (f st).2 i := by
  unfold outcome
  rw [stateAfter_succ_left]

theorem results_range_succ (f : Tryable σ) (st : σ) (m : Nat) :
    (List.range (m + 1)).map (outcome f st)
      = outcome f st 0 :: (List.range m).map (outcome f (f st).2) := by
  rw [List.range_succ_eq_map, List.map_cons, List.map_map]
  congr 1
  apply List.map_congr_left
  intro i _
  exact outcome_succ_left f st i

theorem fibonacciNext_continues (st : Int × Int) : (fibonacciNext st).1.2 = false := rfl

theorem withMaxRetries_stop (max : Nat) (b : Backoff β) (a : Nat) (bs : β) (h : max ≤ a) :
    (GoAgain.WithMaxRetries max b).Next (a, bs) = ((0, true), (a, bs)) := by
  simp [GoAgain.WithMaxRetries, h]

theorem withMaxRetries_continue (max : Nat) (b : Backoff β)
    (hb : ∀ x, (b.Next x).1.2 = false) (a : Nat) (bs : β) (h : a < max) :
    (GoAgain.WithMaxRetries max b).Next (a, bs)
      = (((b.Next bs).1.1, false), (a + 1, (b.Next bs).2)) := by
  have h1 := hb bs
  have h2 : ¬ max ≤ a := by omega
  simp only [GoAgain.WithMaxRetries, ge_iff_le, h2, if_false]
  rcases hn : b.Next bs with ⟨⟨d, stop⟩, bs1⟩
  rw [hn] at h1
  simp at h1
  subst h1
  rfl


@[simp] theorem results_nil : results [] = [] := rfl

@[simp] theorem results_append (t u : List Event) : results (t ++ u) = results t ++ results u := by
  simp [results]

@[simp] theorem results_cons (ev : Event) (t : List Event) :
    results (ev :: t) = (match ev with
      | .attempt r => [r]
      | _ => []) ++ results t := by
  cases ev <;> simp [results]

@[simp] theorem handled_nil : handled [] = [] := rfl

@[simp] theorem handled_append (t u : List Event) : handled (t ++ u) = handled t ++ handled u := by
  simp [handled]

@[simp] theorem handled_cons (ev : Event) (t : List Event) :
    handled (ev :: t) = (match ev with
      | .handler e => [e]
      | _ => []) ++ handled t := by
  cases ev <;> simp [handled]

@[simp] theorem fallbackResults_nil : fallbackResults [] = [] := rfl

@[simp] theorem fallbackResults_append (t u : List Event) :
    fallbackResults (t ++ u) = fallbackResults t ++ fallbackResults u := by
  simp [fallbackResults]

@[simp] theorem fallbackResults_cons (ev : Event) (t : List Event) :
    fallbackResults (ev :: t) = (match ev with
      | .fallback r => [r]
      | _ => []) ++ fallbackResults t := by
  cases ev <;> simp [fallbackResults]

@[simp] theorem sleeps_nil : sleeps [] = [] := rfl

@[simp] theorem sleeps_append (t u : List Event) : sleeps (t ++ u) = sleeps t ++ sleeps u := by
  simp [sleeps]

@[simp] theorem sleeps_cons (ev : Event) (t : List Event) :
    sleeps (ev :: t) = (match ev with
      | .sleep d => [d]
      | _ => []) ++ sleeps t := by
  cases ev <;> simp [sleeps]

theorem retried_eq (s : Specification σ ω) (t : List Event) :
    retried s t = (results t).filter (retryable s) := rfl


theorem retryable_asksBackoff (s : Specification σ ω) (r : Option GoError)
    (h : retryable s r = true) : asksBackoff s r = true := by
  cases r with
  | none => simp [retryable] at h
  | some e =>
    simp only [retryable, Bool.not_eq_true'] at h
    simp [asksBackoff, h]

theorem asksBackoff_returned (s : Specification σ ω) (ma : Nat) (r : Option GoError) :
    asksBackoff s r = (match returned s ma r with
      | none => false
      | some x => x.marked.isSome) := by
  cases r with
  | none => rfl
  | some e =>
    cases hd : s.dontRetry e <;> simp [asksBackoff, returned, hd, RetryableError, GoError.marked]

theorem returned_eq_none (s : Specification σ ω) (ma : Nat) (r : Option GoError) :
    returned s ma r = none ↔ r = none := by
  cases r with
  | none => simp [returned]
  | some e => cases hd : s.dontRetry e <;> simp [returned, hd, RetryableError]

theorem loopResult_eq_none (s : Specification σ ω) (u : Bool) (ma : Nat) (r : Option GoError) :
    loopResult s u ma r = none ↔ r = none := by
  unfold loopResult
  rw [← returned_eq_none s ma r]
  cases returned s ma r with
  | none => simp
  | some x => cases hx : x.marked <;> simp [hx]

theorem loopResult_retryable (s : Specification σ ω) (u : Bool) (ma : Nat) (e : GoError)
    (h : retryable s (some e) = true) :
    loopResult s u ma (some e) = some (if u then e else .retryableError ma e) := by
  simp only [retryable, Bool.not_eq_true'] at h
  simp [loopResult, returned, h, RetryableError, GoError.marked]

theorem loopResult_dontRetry (s : Specification σ ω) (u : Bool) (ma : Nat) (e : GoError)
    (h : s.dontRetry e = true) (hm : e.marked = none) :
    loopResult s u ma (some e) = some e := by
  simp [loopResult, returned, h, hm]

theorem retryLibFunction_step (s : Specification σ ω) (f : Tryable σ) (ma : Nat)
    (w : World σ ω) :
    ∃ hdl, (s.retryLibFunction f ma w).1 = returned s ma (f w.st).1 ∧
      (s.retryLibFunction f ma w).2.st = (f w.st).2 ∧
      (s.retryLibFunction f ma w).2.trace = w.trace ++ .attempt (f w.st).1 :: hdl ∧
      results hdl = [] ∧ fallbackResults hdl = [] ∧ sleeps hdl = [] ∧
      handled hdl = (match s.attemptErrorHandler with
        | none => []
        | some _ => if retryable s (f w.st).1 then [(f w.st).1] else []) ∧
      (s.retryLibFunction f ma w).2.obs = (match s.attemptErrorHandler with
        | none => w.obs
        | some h => if retryable s (f w.st).1 then h (f w.st).1 w.obs else w.obs) := by
  rcases hf : f w.st with ⟨r, st1⟩
  cases r with
  | none =>
    refine ⟨[], ?_⟩
    cases hh : s.attemptErrorHandler <;> simp [retryLibFunction, hf, returned, retryable]
  | some e =>
    cases hd : s.dontRetry e with
    | true =>
      refine ⟨[], ?_⟩
      cases hh : s.attemptErrorHandler <;> simp [retryLibFunction, hf, returned, retryable, hd]
    | false =>
      cases hh : s.attemptErrorHandler with
      | none =>
        refine ⟨[], ?_⟩
        simp [retryLibFunction, hf, returned, retryable, hd, hh]
      | some h =>
        refine ⟨[.handler (some e)], ?_⟩
        simp [retryLibFunction, hf, returned, retryable, hd, hh]

theorem retried_attempt_cons (s : Specification σ ω) (r : Option GoError) (hdl rest : List Event)
    (hres : results hdl = []) :
    retried s (.attempt r :: hdl ++ rest)
      = (if retryable s r then [r] else []) ++ retried s rest := by
  by_cases hr : retryable s r = true <;> simp [retried_eq, hres, hr]

theorem Do_run (s : Specification σ ω) (f : Tryable σ) (u : Bool) (ma : Nat) (b : Backoff β)
    (hb : ∀ x, (b.Next x).1.2 = false) :
    ∀ (fuel a : Nat) (bs : β) (w : World σ ω), a ≤ s.maxRetries → s.maxRetries - a < fuel →
      ∃ err w1 delta m,
        Do u (GoAgain.WithMaxRetries s.maxRetries b) (s.retryLibFunction f ma) fuel (a, bs) w
          = some (err, w1) ∧
        w1.trace = w.trace ++ delta ∧
        1 ≤ m ∧ m + a ≤ s.maxRetries + 1 ∧
        results delta = (List.range m).map (outcome f w.st) ∧
        w1.st = stateAfter f w.st m ∧
        err = loopResult s u ma (outcome f w.st (m - 1)) ∧
        (∀ i, i + 1 < m → asksBackoff s (outcome f w.st i) = true) ∧
        (asksBackoff s (outcome f w.st (m - 1)) = true → m + a = s.maxRetries + 1) ∧
        fallbackResults delta = [] ∧
        handled delta = (match s.attemptErrorHandler with
          | none => []
          | some _ => retried s delta) ∧
        w1.obs = (match s.attemptErrorHandler with
          | none => w.obs
          | some h => (retried s delta).foldl (fun o e => h e o) w.obs) ∧
        (sleeps delta).length = m - 1 := by
  intro fuel
  induction fuel with
  | zero => intro a bs w _ h; omega
  | succ fuel ih =>
    intro a bs w ha hfuel
    obtain ⟨hdl, hret, hst2, htr2, hres2, hfb2, hsl2, hhd2, hobs2⟩ :=
      retryLibFunction_step s f ma w
    have h0 : outcome f w.st 0 = (f w.st).1 := rfl
    have hs1 : stateAfter f w.st 1 = (f w.st).2 := rfl
    have hask := asksBackoff_returned s ma (f w.st).1
    have hloop : loopResult s u ma (f w.st).1 = (match returned s ma (f w.st).1 with
        | none => none
        | some x =>
          match x.marked with
          | none => some x
          | some inner => some (if u then inner else x)) := rfl
    rw [← hret] at hask hloop
    rcases hstep : s.retryLibFunction f ma w with ⟨ret, w2⟩
    rw [hstep] at hst2 htr2 hobs2 hask hloop
    simp only at hst2 htr2 hobs2 hask hloop
    have hr1 : retried s (.attempt (f w.st).1 :: hdl)
        = (if retryable s (f w.st).1 then [(f w.st).1] else []) := by
      have := retried_attempt_cons s (f w.st).1 hdl [] hres2
      simpa [retried_eq] using this
    have hB1 : handled (.attempt (f w.st).1 :: hdl) = (match s.attemptErrorHandler with
        | none => []
        | some _ => retried s (.attempt (f w.st).1 :: hdl)) := by
      rw [hr1]
      simp only [handled_cons, List.nil_append, hhd2]
    have hB2 : w2.obs = (match s.attemptErrorHandler with
        | none => w.obs
        | some h => (retried s (.attempt (f w.st).1 :: hdl)).foldl (fun o e => h e o) w.obs) := by
      rw [hr1, hobs2]
      cases s.attemptErrorHandler with
      | none => rfl
      | some h => by_cases hr : retryable s (f w.st).1 = true <;> simp [hr]
    have hterm : ∀ e, Do u (GoAgain.WithMaxRetries s.maxRetries b) (s.retryLibFunction f ma)
          (fuel + 1) (a, bs) w = some (e, w2) →
        e = loopResult s u ma (f w.st).1 →
        (asksBackoff s (f w.st).1 = true → 1 + a = s.maxRetries + 1) →
        ∃ err w1 delta m,
          Do u (GoAgain.WithMaxRetries s.maxRetries b) (s.retryLibFunction f ma) (fuel + 1)
            (a, bs) w = some (err, w1) ∧
          w1.trace = w.trace ++ delta ∧
          1 ≤ m ∧ m + a ≤ s.maxRetries + 1 ∧
          results delta = (List.range m).map (outcome f w.st) ∧
          w1.st = stateAfter f w.st m ∧
          err = loopResult s u ma (outcome f w.st (m - 1)) ∧
          (∀ i, i + 1 < m → asksBackoff s (outcome f w.st i) = true) ∧
          (asksBackoff s (outcome f w.st (m - 1)) = true → m + a = s.maxRetries + 1) ∧
          fallbackResults delta = [] ∧
          handled delta = (match s.attemptErrorHandler with
            | none => []
            | some _ => retried s delta) ∧
          w1.obs = (match s.attemptErrorHandler with
            | none => w.obs
            | some h => (retried s delta).foldl (fun o e => h e o) w.obs) ∧
          (sleeps delta).length = m - 1 := by
      intro e hDo he hx
      refine ⟨e, w2, .attempt (f w.st).1 :: hdl, 1, hDo, htr2, le_refl _, by omega, ?_, ?_, he,
        ?_, hx, ?_, hB1, hB2, ?_⟩
      · simp [List.range_succ, hres2, h0]
      · rw [hst2, hs1]
      · intro i hi; omega
      · simp [hfb2]
      · simp [hsl2]
    cases ret with
    | none =>
      apply hterm none
      · simp only [Do, hstep]
      · rw [hloop]
      · intro h; rw [hask] at h; simp at h
    | some x =>
      cases hm : x.marked with
      | none =>
        apply hterm (some x)
        · simp only [Do, hstep, hm]
        · rw [hloop]; simp only [hm]
        · intro h; rw [hask] at h; simp [hm] at h
      | some inner =>
        by_cases hlt : a < s.maxRetries
        · have hnext := withMaxRetries_continue s.maxRetries b hb a bs hlt
          obtain ⟨err, w3, delta, m, hDo, htr, hm1, hm2, hres, hst, herr, hall, hex, hfb, hhd,
            hobs, hsl⟩ := ih (a + 1) (b.Next bs).2 (w2.record (.sleep (b.Next bs).1.1))
              (by omega) (by omega)
          have hst2r : (w2.record (.sleep (b.Next bs).1.1)).st = (f w.st).2 := hst2
          have hobs2r : (w2.record (.sleep (b.Next bs).1.1)).obs = w2.obs := rfl
          have hrd : retried s (.attempt (f w.st).1 :: hdl ++ [.sleep (b.Next bs).1.1] ++ delta)
              = retried s (.attempt (f w.st).1 :: hdl) ++ retried s delta := by
            by_cases hr : retryable s (f w.st).1 = true <;>
              simp [retried_eq, hres2, hr, List.filter_cons]
          refine ⟨err, w3, .attempt (f w.st).1 :: hdl ++ [.sleep (b.Next bs).1.1] ++ delta, m + 1,
            ?_, ?_, by omega, by omega, ?_, ?_, ?_, ?_, ?_, ?_, ?_, ?_, ?_⟩
          · simp only [Do, hstep, hm, hnext]
            exact hDo
          · rw [htr]; simp [World.record, htr2]
          · rw [results_range_succ, h0, ← hst2r, ← hres]
            simp [hres2]
          · rw [hst, hst2r, stateAfter_succ_left]
          · rw [herr, hst2r]
            obtain ⟨k, rfl⟩ : ∃ k, m = k + 1 := ⟨m - 1, by omega⟩
            simp [outcome_succ_left]
          · intro i hi
            cases i with
            | zero => rw [h0, hask]; simp [hm]
            | succ i =>
              rw [outcome_succ_left, ← hst2r]
              exact hall i (by omega)
          · intro h
            have : asksBackoff s (outcome f (w2.record (.sleep (b.Next bs).1.1)).st (m - 1))
                = true := by
              obtain ⟨k, rfl⟩ : ∃ k, m = k + 1 := ⟨m - 1, by omega⟩
              rw [hst2r, ← outcome_succ_left]
              simpa using h
            have := hex this
            omega
          · simp [hfb, hfb2]
          · rw [hrd]
            have hh1 : handled (.attempt (f w.st).1 :: hdl ++ [.sleep (b.Next bs).1.1] ++ delta)
                = handled (.attempt (f w.st).1 :: hdl) ++ handled delta := by simp
            rw [hh1, hB1, hhd]
            cases s.attemptErrorHandler <;> simp
          · rw [hrd, hobs, hobs2r, hB2]
            cases s.attemptErrorHandler <;> simp
          · simp [hsl, hsl2]; omega
        · have hnext := withMaxRetries_stop s.maxRetries b a bs (by omega)
          apply hterm (some (if u then inner else x))
          · simp only [Do, hstep, hm, hnext]
          · rw [hloop]; simp only [hm]
          · intro _; omega

/-! ## What one call of `Try` does -/

theorem Try_config_error (s : Specification σ ω) (f : Tryable σ) (u : Bool) (fuel : Nat) (st : σ)
    (obs : ω) (fresh : Nat) (h : s.startDelay ≤ 0) :
    s.Try f u fuel st obs fresh
      = some (some (.withStack fresh (.errorString (fresh + 1) "base must be greater than 0")
          "fibonacci start delay must be greater than 0, no attempt was made"),
        { st := st, obs := obs, trace := [] }) := by
  simp [Try, NewFibonacci, h, errors.Wrap]

theorem Try_run (s : Specification σ ω) (f : Tryable σ) (u : Bool) (fuel : Nat) (st : σ)
    (obs : ω) (fresh : Nat) (hdelay : 0 < s.startDelay) (hfuel : s.maxRetries < fuel) :
    ∃ err w m,
      s.Try f u fuel st obs fresh = some (err, w) ∧
      1 ≤ m ∧ m ≤ s.maxRetries + 1 ∧
      results w.trace = (List.range m).map (outcome f st) ∧
      (∀ i, i + 1 < m → asksBackoff s (outcome f st i) = true) ∧
      (asksBackoff s (outcome f st (m - 1)) = true → m = s.maxRetries + 1) ∧
      handled w.trace = (match s.attemptErrorHandler with
        | none => []
        | some _ => retried s w.trace) ∧
      w.obs = (match s.attemptErrorHandler with
        | none => obs
        | some h => (retried s w.trace).foldl (fun o e => h e o) obs) ∧
      (sleeps w.trace).length = m - 1 ∧
      (outcome f st (m - 1) = none ∨ s.fallback = none →
        err = loopResult s u (fresh + 2) (outcome f st (m - 1)) ∧
        fallbackResults w.trace = [] ∧ w.st = stateAfter f st m) ∧
      (∀ fb, outcome f st (m - 1) ≠ none → s.fallback = some fb →
        err = errors.Wrap (fb (stateAfter f st m)).1 "error in fallback" fresh ∧
        fallbackResults w.trace = [(fb (stateAfter f st m)).1] ∧
        w.trace.getLast? = some (.fallback (fb (stateAfter f st m)).1) ∧
        w.st = (fb (stateAfter f st m)).2) := by
  obtain ⟨err, w1, delta, m, hDo, htr, hm1, hm2, hres, hst, herr, hall, hex, hfb, hhd, hobs, hsl⟩ :=
    Do_run s f u (fresh + 2) { state := (0, s.startDelay), Next := fibonacciNext }
      fibonacciNext_continues fuel 0 (0, s.startDelay) { st := st, obs := obs, trace := [] }
      (Nat.zero_le _) (by omega)
  have htr1 : w1.trace = delta := by simpa using htr
  have hnf : ¬ s.startDelay ≤ 0 := by omega
  have hDo1 : Do u (GoAgain.WithMaxRetries s.maxRetries
        { state := (0, s.startDelay), Next := fibonacciNext })
      (s.retryLibFunction f (fresh + 2)) fuel
      (GoAgain.WithMaxRetries s.maxRetries { state := (0, s.startDelay), Next := fibonacciNext }).state
      { st := st, obs := obs, trace := [] } = some (err, w1) := hDo
  have hret : retried s w1.trace = retried s delta := by rw [htr1]
  have hnone : err = none ↔ outcome f st (m - 1) = none := by
    rw [herr]
    exact loopResult_eq_none s u (fresh + 2) _
  cases herr0 : err with
  | none =>
    have hout : outcome f st (m - 1) = none := hnone.1 herr0
    refine ⟨none, w1, m, ?_, hm1, by omega, by rw [htr1]; exact hres, hall, ?_, ?_, ?_, ?_, ?_, ?_⟩
    · simp [Try, NewFibonacci, hnf, hDo1, herr0]
    · intro h; have := hex h; omega
    · rw [hret, htr1]; exact hhd
    · rw [hret]; exact hobs
    · rw [htr1]; exact hsl
    · intro _
      exact ⟨by rw [← herr, herr0], by rw [htr1]; exact hfb, hst⟩
    · intro fb hne
      exact absurd hout hne
  | some e =>
    have hout : outcome f st (m - 1) ≠ none := fun h => by
      have := hnone.2 h
      rw [herr0] at this
      cases this
    cases hfbk : s.fallback with
    | none =>
      refine ⟨some e, w1, m, ?_, hm1, by omega, by rw [htr1]; exact hres, hall, ?_, ?_, ?_, ?_,
        ?_, ?_⟩
      · simp [Try, NewFibonacci, hnf, hDo1, herr0, hfbk]
      · intro h; have := hex h; omega
      · rw [hret, htr1]; exact hhd
      · rw [hret]; exact hobs
      · rw [htr1]; exact hsl
      · intro _
        exact ⟨by rw [← herr, herr0], by rw [htr1]; exact hfb, hst⟩
      · intro fb _ h
        cases h
    | some fb =>
      have hretf : retried s (w1.trace ++ [.fallback (fb w1.st).1]) = retried s delta := by
        simp [retried_eq, htr1]
      refine ⟨errors.Wrap (fb w1.st).1 "error in fallback" fresh,
        { w1 with st := (fb w1.st).2, trace := w1.trace ++ [.fallback (fb w1.st).1] }, m, ?_,
        hm1, by omega, ?_, hall, ?_, ?_, ?_, ?_, ?_, ?_⟩
      · simp [Try, NewFibonacci, hnf, hDo1, herr0, hfbk]
      · simp [htr1, hres]
      · intro h; have := hex h; omega
      · show handled (w1.trace ++ [.fallback (fb w1.st).1]) = _
        rw [hretf]
        simp [htr1, hhd]
      · show w1.obs = _
        rw [hretf]
        exact hobs
      · simp [htr1, hsl]
      · intro h
        rcases h with h | h
        · exact absurd h hout
        · cases h
      · intro fb1 _ h
        cases h
        rw [← hst]
        exact ⟨rfl, by simp [htr1, hfb], by simp, rfl⟩

theorem attempt_mem_results (t : List Event) (r : Option GoError) (h : Event.attempt r ∈ t) :
    r ∈ results t := by
  simp only [results, List.mem_filterMap]
  exact ⟨_, h, rfl⟩

theorem results_split (g : Nat → Option GoError) (m : Nat) (t pre post : List Event)
    (r : Option GoError) (hres : results t = (List.range m).map g)
    (ht : t = pre ++ Event.attempt r :: post) :
    r = g (attempts pre) ∧ attempts pre + 1 + attempts post = m := by
  subst ht
  have hlen : attempts pre + 1 + attempts post = m := by
    have := congrArg List.length hres
    simp [attempts] at this ⊢
    omega
  refine ⟨?_, hlen⟩
  have hlt : attempts pre < m := by omega
  have hL : (results (pre ++ Event.attempt r :: post))[attempts pre]? = some r := by
    rw [results_append, results_cons, attempts,
      List.getElem?_append_right (le_refl _)]
    simp
  have hR : ((List.range m).map g)[attempts pre]? = some (g (attempts pre)) := by
    simp [List.getElem?_range hlt]
  rw [hres, hR] at hL
  exact (Option.some.inj hL).symm

/-! ## The trace of a run, event by event -/

theorem stateAt_succ_left (b : Backoff β) (st : β) (i : Nat) :
    Backoff.stateAt b st (i + 1) = Backoff.stateAt b (b.Next st).2 i := by
  induction i with
  | zero => rfl
  | succ i ih =>
    show (b.Next (Backoff.stateAt b st (i + 1))).2 = (b.Next (Backoff.stateAt b (b.Next st).2 i)).2
    rw [ih]

theorem waitAt_succ_left (b : Backoff β) (st : β) (i : Nat) :
    Backoff.waitAt b st (i + 1) = Backoff.waitAt b (b.Next st).2 i := by
  unfold Backoff.waitAt
  rw [stateAt_succ_left]

theorem handlerEvents_not_retryable (s : Specification σ ω) (r : Option GoError)
    (h : retryable s r = false) : handlerEvents s r = [] := by
  unfold handlerEvents
  cases s.attemptErrorHandler <;> simp [h]

theorem retryLibFunction_trace (s : Specification σ ω) (f : Tryable σ) (ma : Nat)
    (w : World σ ω) :
    (s.retryLibFunction f ma w).2.trace = w.trace ++ attemptEvents s (f w.st).1 ∧
    (s.retryLibFunction f ma w).2.st = (f w.st).2 := by
  rcases hf : f w.st with ⟨r, st1⟩
  cases r with
  | none =>
    simp [retryLibFunction, hf, attemptEvents, handlerEvents_not_retryable s none rfl]
  | some e =>
    cases hd : s.dontRetry e with
    | true =>
      simp [retryLibFunction, hf, hd, attemptEvents,
        handlerEvents_not_retryable s (some e) (by simp [retryable, hd])]
    | false =>
      cases hh : s.attemptErrorHandler with
      | none => simp [retryLibFunction, hf, hd, hh, attemptEvents, handlerEvents]
      | some h => simp [retryLibFunction, hf, hd, hh, attemptEvents, handlerEvents, retryable]

theorem Do_trace (s : Specification σ ω) (f : Tryable σ) (u : Bool) (ma : Nat) (b : Backoff β)
    (hb : ∀ x, (b.Next x).1.2 = false) :
    ∀ (fuel a : Nat) (bs : β) (w : World σ ω) (err : Option GoError) (w1 : World σ ω),
      Do u (GoAgain.WithMaxRetries s.maxRetries b) (s.retryLibFunction f ma) fuel (a, bs) w
        = some (err, w1) →
      ∃ k, w1.trace = w.trace
        ++ rounds (fun i => attemptEvents s (outcome f w.st i) ++ [.sleep (Backoff.waitAt b bs i)]) k
        ++ attemptEvents s (outcome f w.st k) := by
  intro fuel
  induction fuel with
  | zero => intro a bs w err w1 h; simp [Do] at h
  | succ fuel ih =>
    intro a bs w err w1 h
    obtain ⟨htr, hst⟩ := retryLibFunction_trace s f ma w
    have h0 : outcome f w.st 0 = (f w.st).1 := rfl
    rcases hstep : s.retryLibFunction f ma w with ⟨ret, w2⟩
    rw [hstep] at htr hst
    simp only at htr hst
    simp only [Do, hstep] at h
    have hterm : w1 = w2 → ∃ k, w1.trace = w.trace
        ++ rounds (fun i => attemptEvents s (outcome f w.st i)
          ++ [.sleep (Backoff.waitAt b bs i)]) k
        ++ attemptEvents s (outcome f w.st k) := by
      intro hw
      refine ⟨0, ?_⟩
      rw [hw, htr, h0]
      simp [rounds]
    cases ret with
    | none =>
      simp only [Option.some.injEq, Prod.mk.injEq] at h
      exact hterm h.2.symm
    | some x =>
      cases hm : x.marked with
      | none =>
        simp only [hm, Option.some.injEq, Prod.mk.injEq] at h
        exact hterm h.2.symm
      | some inner =>
        simp only [hm] at h
        by_cases hlt : a < s.maxRetries
        · rw [withMaxRetries_continue s.maxRetries b hb a bs hlt] at h
          simp only at h
          obtain ⟨k, hk⟩ := ih (a + 1) (b.Next bs).2 (w2.record (.sleep (b.Next bs).1.1)) err w1 h
          refine ⟨k + 1, ?_⟩
          have hs2 : (w2.record (.sleep (b.Next bs).1.1)).st = (f w.st).2 := hst
          have hg : (fun i => attemptEvents s (outcome f (w2.record (.sleep (b.Next bs).1.1)).st i)
                ++ [Event.sleep (Backoff.waitAt b (b.Next bs).2 i)])
              = (fun i => attemptEvents s (outcome f w.st (i + 1))
                ++ [Event.sleep (Backoff.waitAt b bs (i + 1))]) := by
            funext i
            rw [hs2, outcome_succ_left, waitAt_succ_left]
          rw [hk, hg, hs2, ← outcome_succ_left]
          have hw0 : Backoff.waitAt b bs 0 = (b.Next bs).1.1 := rfl
          simp [rounds, World.record, htr, h0, hw0]
        · rw [withMaxRetries_stop s.maxRetries b a bs (by omega)] at h
          simp only [Option.some.injEq, Prod.mk.injEq] at h
          exact hterm h.2.symm

theorem results_rounds (g : Nat → List Event) (r : Nat → Option GoError) (k : Nat)
    (h : ∀ i, results (g i) = [r i]) : results (rounds g k) = (List.range k).map r := by
  induction k generalizing g r with
  | zero => rfl
  | succ k ih =>
    rw [rounds, results_append, h 0, ih (fun i => g (i + 1)) (fun i => r (i + 1)) (fun i => h (i + 1)),
      List.range_succ_eq_map, List.map_cons, List.map_map]
    rfl

theorem sleeps_rounds (g : Nat → List Event) (d : Nat → Int) (k : Nat)
    (h : ∀ i, sleeps (g i) = [d i]) : sleeps (rounds g k) = (List.range k).map d := by
  induction k generalizing g d with
  | zero => rfl
  | succ k ih =>
    rw [rounds, sleeps_append, h 0, ih (fun i => g (i + 1)) (fun i => d (i + 1)) (fun i => h (i + 1)),
      List.range_succ_eq_map, List.map_cons, List.map_map]
    rfl

theorem fallbackResults_rounds (g : Nat → List Event) (k : Nat)
    (h : ∀ i, fallbackResults (g i) = []) : fallbackResults (rounds g k) = [] := by
  induction k generalizing g with
  | zero => rfl
  | succ k ih => rw [rounds, fallbackResults_append, h 0, ih (fun i => g (i + 1)) (fun i => h (i + 1))]; rfl

theorem mem_rounds (g : Nat → List Event) (k : Nat) (x : Event) (h : x ∈ rounds g k) :
    ∃ i, i < k ∧ x ∈ g i := by
  induction k generalizing g with
  | zero => simp [rounds] at h
  | succ k ih =>
    rw [rounds, List.mem_append] at h
    rcases h with h | h
    · exact ⟨0, by omega, h⟩
    · obtain ⟨i, hi, hx⟩ := ih (fun i => g (i + 1)) h
      exact ⟨i + 1, by omega, hx⟩

theorem rounds_congr (g g' : Nat → List Event) (k : Nat) (h : ∀ i, i < k → g i = g' i) :
    rounds g k = rounds g' k := by
  induction k generalizing g g' with
  | zero => rfl
  | succ k ih =>
    rw [rounds, rounds, h 0 (by omega),
      ih (fun i => g (i + 1)) (fun i => g' (i + 1)) (fun i hi => h (i + 1) (by omega))]

theorem results_handlerEvents (s : Specification σ ω) (r : Option GoError) :
    results (handlerEvents s r) = [] ∧ sleeps (handlerEvents s r) = [] ∧
      fallbackResults (handlerEvents s r) = [] ∧
      Event.attempt none ∉ handlerEvents s r := by
  unfold handlerEvents
  cases s.attemptErrorHandler with
  | none => simp
  | some h => by_cases hr : retryable s r = true <;> simp [hr]

theorem results_attemptEvents (s : Specification σ ω) (r : Option GoError) :
    results (attemptEvents s r) = [r] ∧ sleeps (attemptEvents s r) = [] ∧
      fallbackResults (attemptEvents s r) = [] := by
  obtain ⟨h1, h2, h3, -⟩ := results_handlerEvents s r
  simp [attemptEvents, h1, h2, h3]

theorem results_map_fallback (l : List (Option GoError)) :
    results (l.map Event.fallback) = [] ∧ sleeps (l.map Event.fallback) = [] ∧
      fallbackResults (l.map Event.fallback) = l := by
  induction l with
  | nil => simp
  | cons a l ih => simp [ih.1, ih.2.1, ih.2.2]

theorem Try_trace (s : Specification σ ω) (f : Tryable σ) (u : Bool) (fuel : Nat) (st : σ)
    (obs : ω) (fresh : Nat) (err : Option GoError) (w : World σ ω) (hdelay : 0 < s.startDelay)
    (h : s.Try f u fuel st obs fresh = some (err, w)) :
    ∃ k, w.trace
      = rounds (fun i => attemptEvents s (outcome f st i)
          ++ [.sleep (Backoff.waitAt { state := (0, s.startDelay), Next := fibonacciNext }
            (0, s.startDelay) i)]) k
        ++ attemptEvents s (outcome f st k)
        ++ (fallbackResults w.trace).map Event.fallback := by
  have hnf : ¬ s.startDelay ≤ 0 := by omega
  simp only [Try, NewFibonacci, hnf, if_false] at h
  rcases hDo : Do u (GoAgain.WithMaxRetries s.maxRetries
        { state := (0, s.startDelay), Next := fibonacciNext })
      (s.retryLibFunction f (fresh + 2)) fuel
      (GoAgain.WithMaxRetries s.maxRetries { state := (0, s.startDelay), Next := fibonacciNext }).state
      { st := st, obs := obs, trace := [] } with _ | ⟨e0, w1⟩
  · rw [hDo] at h
    simp at h
  · rw [hDo] at h
    obtain ⟨k, hk⟩ := Do_trace s f u (fresh + 2) { state := (0, s.startDelay), Next := fibonacciNext }
      fibonacciNext_continues fuel 0 (0, s.startDelay) { st := st, obs := obs, trace := [] } e0 w1 hDo
    simp only [List.nil_append] at hk
    have hfb0 : fallbackResults w1.trace = [] := by
      rw [hk, fallbackResults_append, (results_attemptEvents s _).2.2, fallbackResults_rounds]
      · rfl
      · intro i
        rw [fallbackResults_append, (results_attemptEvents s _).2.2]
        rfl
    refine ⟨k, ?_⟩
    cases e0 with
    | none =>
      simp only [Option.some.injEq, Prod.mk.injEq] at h
      rw [← h.2, hfb0, hk]
      simp
    | some e =>
      cases hfbk : s.fallback with
      | none =>
        rw [hfbk] at h
        simp only [Option.some.injEq, Prod.mk.injEq] at h
        rw [← h.2, hfb0, hk]
        simp
      | some fb =>
        rw [hfbk] at h
        simp only [Option.some.injEq, Prod.mk.injEq] at h
        rw [← h.2]
        simp only [fallbackResults_append, hfb0]
        rw [hk]
        simp

theorem Try_shape (s : Specification σ ω) (f : Tryable σ) (u : Bool) (fuel : Nat) (st : σ)
    (obs : ω) (fresh : Nat) (hdelay : 0 < s.startDelay) (hfuel : s.maxRetries < fuel) :
    ∃ err w m,
      s.Try f u fuel st obs fresh = some (err, w) ∧
      1 ≤ m ∧ m ≤ s.maxRetries + 1 ∧ attempts w.trace = m ∧
      (∀ i, i + 1 < m → asksBackoff s (outcome f st i) = true) ∧
      (outcome f st (m - 1) = none → err = none ∧ fallbackResults w.trace = []) ∧
      w.trace
        = rounds (fun i => attemptEvents s (outcome f st i)
            ++ [.sleep (Backoff.waitAt { state := (0, s.startDelay), Next := fibonacciNext }
              (0, s.startDelay) i)]) (m - 1)
          ++ attemptEvents s (outcome f st (m - 1))
          ++ (fallbackResults w.trace).map Event.fallback := by
  obtain ⟨err, w, m, hTry, hm1, hm2, hres, hall, -, -, -, -, hplain, -⟩ :=
    Try_run s f u fuel st obs fresh hdelay hfuel
  obtain ⟨k, hk⟩ := Try_trace s f u fuel st obs fresh err w hdelay hTry
  have hlen : attempts w.trace = m := by simp [attempts, hres]
  have hk1 : k + 1 = m := by
    have h1 := congrArg (fun t => (results t).length) hk
    simp only [results_append, List.length_append, (results_attemptEvents s _).1,
      (results_map_fallback _).1] at h1
    rw [results_rounds _ (outcome f st) k] at h1
    · have h2 : (results w.trace).length = m := hlen
      simp at h1
      omega
    · intro i
      rw [results_append, (results_attemptEvents s _).1]
      rfl
  subst hk1
  refine ⟨err, w, k + 1, hTry, hm1, hm2, hlen, hall, ?_, hk⟩
  intro hnone
  obtain ⟨h1, h2, -⟩ := hplain (Or.inl hnone)
  exact ⟨by rw [h1, hnone]; rfl, h2⟩

theorem append_singleton_split (l pre post : List Event) (x : Event) (hx : x ∉ l)
    (h : l ++ [x] = pre ++ x :: post) : post = [] := by
  induction l generalizing pre with
  | nil =>
    cases pre with
    | nil => simpa using h.symm
    | cons a pre =>
      have := congrArg List.length h
      simp at this
  | cons a l ih =>
    cases pre with
    | nil =>
      simp only [List.cons_append, List.nil_append, List.cons.injEq] at h
      exact absurd (by rw [h.1]; exact List.mem_cons_self _ _) hx
    | cons b pre =>
      simp only [List.cons_append, List.cons.injEq] at h
      exact ih pre (fun hm => hx (List.mem_cons_of_mem _ hm)) h.2


/-! ## The waits of the Fibonacci backoff -/

theorem wrapInt64_small (x : Int) (h0 : 0 ≤ x) (h1 : x ≤ 9223372036854775807) :
    wrapInt64 x = x := by
  unfold wrapInt64
  norm_num
  omega

theorem stateAt_fibonacci (d : Int) (k : Nat) :
    Backoff.stateAt { state := (0, d), Next := fibonacciNext } (0, d) k = fibonacciState d k := by
  induction k with
  | zero => rfl
  | succ k ih =>
    simp only [Backoff.stateAt, ih, fibonacciNext, fibonacciState]

theorem fibonacciState_wait (d : Int) (h0 : 0 ≤ d) (h1 : d ≤ 9223372036854775807) (k : Nat) :
    (fibonacciState d (k + 1)).2 = fibonacciWait d k ∧
      (fibonacciState d (k + 2)).2 = fibonacciWait d (k + 1) := by
  have hd : wrapInt64 d = d := wrapInt64_small d h0 h1
  induction k with
  | zero => simp [fibonacciState, fibonacciWait, hd]
  | succ k ih =>
    refine ⟨ih.2, ?_⟩
    have h2 : (fibonacciState d (k + 1 + 2)).2
        = wrapInt64 ((fibonacciState d (k + 1)).2 + (fibonacciState d (k + 2)).2) := by
      simp only [fibonacciState]
    rw [h2, ih.1, ih.2]
    simp only [fibonacciWait]
    rw [add_comm]

theorem waitAt_fibonacci (d : Int) (h0 : 0 ≤ d) (h1 : d ≤ 9223372036854775807) (k : Nat) :
    Backoff.waitAt { state := (0, d), Next := fibonacciNext } (0, d) k = fibonacciWait d k := by
  rw [← (fibonacciState_wait d h0 h1 k).1]
  simp only [Backoff.waitAt, stateAt_fibonacci, fibonacciNext, fibonacciState]

/-! ## `append` on the no-retry set -/

theorem roundupsize_ge (n : Nat) : n ≤ roundupsize n := by
  unfold roundupsize
  cases h : sizeClasses.find? (fun c => decide (n ≤ c)) with
  | none => simp only; omega
  | some c =>
    have := List.find?_some h
    simpa using this

theorem growLoop_ge (k c needed : Nat) (h : needed ≤ c + k) : needed ≤ growLoop k c needed := by
  induction k generalizing c with
  | zero => simpa [growLoop] using h
  | succ k ih =>
    unfold growLoop
    split
    · apply ih
      omega
    · omega

theorem growCap_ge (oldCap needed : Nat) : needed ≤ growCap oldCap needed := by
  have hx : needed ≤ (if 2 * oldCap < needed then needed
      else if oldCap < 256 then 2 * oldCap else growLoop needed oldCap needed) := by
    split
    · exact le_refl _
    · split
      · omega
      · exact growLoop_ge _ _ _ (by omega)
  have hr := roundupsize_ge (16 * (if 2 * oldCap < needed then needed
      else if oldCap < 256 then 2 * oldCap else growLoop needed oldCap needed))
  unfold growCap
  omega

theorem getD_set_self (h : Heap) (a : Nat) (v : List (Option GoError)) (ha : a < h.length) :
    (h.set a v).getD a [] = v := by
  simp [List.getD_eq_getElem?_getD, ha]

theorem getD_append_length (h : Heap) (v : List (Option GoError)) :
    (h ++ [v]).getD h.length [] = v := by
  simp [List.getD_eq_getElem?_getD]

theorem getD_length_pos (h : Heap) (a : Nat) (hp : 0 < (h.getD a []).length) : a < h.length := by
  by_contra hlt
  have : h.getD a [] = [] := by
    simp [List.getD_eq_getElem?_getD, List.getElem?_eq_none (Nat.le_of_not_lt hlt)]
  rw [this] at hp
  simp at hp

theorem take_append_fill (arr xs rest : List (Option GoError)) (n : Nat) (hn : n ≤ arr.length) :
    List.take (n + xs.length) (List.take n arr ++ xs ++ rest) = List.take n arr ++ xs := by
  have hl : (List.take n arr ++ xs).length = n + xs.length := by
    simp only [List.length_append, List.length_take]
    omega
  rw [← hl, List.take_left']
  rfl

theorem Slice.append_elems (sl : Slice) (h : Heap) (xs : List (Option GoError))
    (hv : sl.valid h) :
    (sl.append h xs).1.elems (sl.append h xs).2 = sl.elems h ++ xs := by
  obtain ⟨h1, h2⟩ := hv
  unfold Slice.append
  by_cases hfit : sl.len + xs.length ≤ sl.cap
  · simp only [hfit, if_true, Slice.elems]
    by_cases ha : sl.array < h.length
    · rw [getD_set_self h _ _ ha]
      exact take_append_fill _ xs _ sl.len (by omega)
    · have hz : (h.getD sl.array []).length = 0 := by
        by_contra hne
        exact ha (getD_length_pos h _ (by omega))
      have hx : xs = [] := by
        apply List.eq_nil_of_length_eq_zero
        omega
      subst hx
      have hl : sl.len = 0 := by omega
      simp [hl]
  · simp only [hfit, if_false, Slice.elems]
    rw [getD_append_length]
    exact take_append_fill _ xs _ sl.len (by omega)

theorem Slice.append_valid (sl : Slice) (h : Heap) (xs : List (Option GoError))
    (hv : sl.valid h) : (sl.append h xs).1.valid (sl.append h xs).2 := by
  obtain ⟨h1, h2⟩ := hv
  unfold Slice.append
  by_cases hfit : sl.len + xs.length ≤ sl.cap
  · rw [if_pos hfit]
    refine ⟨hfit, ?_⟩
    show sl.cap ≤ _
    by_cases ha : sl.array < h.length
    · rw [getD_set_self h _ _ ha]
      simp only [List.length_append, List.length_take, List.length_drop]
      omega
    · have hz : (h.getD sl.array []).length = 0 := by
        by_contra hne
        exact ha (getD_length_pos h _ (by omega))
      omega
  · rw [if_neg hfit]
    have hg : sl.len + xs.length ≤ growCap sl.cap (sl.len + xs.length) := growCap_ge _ _
    refine ⟨hg, ?_⟩
    show growCap sl.cap (sl.len + xs.length) ≤ _
    rw [getD_append_length]
    simp only [List.length_append, List.length_replicate, Slice.elems, List.length_take]
    omega


/-! ## The claims -/

theorem dontRetry_iff (s : Specification σ ω) (e : GoError) :
    s.dontRetry e = true ↔ errors.Cause (some e) ∈ s.dontRetryErrorSet := by
  simp only [dontRetry, List.any_eq_true, decide_eq_true_eq]
  constructor
  · rintro ⟨x, hx, h⟩
    rw [h]
    exact hx
  · intro h
    exact ⟨_, h, rfl⟩

theorem retryable_eq_failedOutsideSet (s : Specification σ ω) (r : Option GoError) :
    retryable s r = failedOutsideSet s r := by
  cases r with
  | none => rfl
  | some e =>
    by_cases h : errors.Cause (some e) ∈ s.dontRetryErrorSet
    · have hd := (dontRetry_iff s e).2 h
      simp [retryable, failedOutsideSet, hd, h]
    · have hd : s.dontRetry e = false := by
        cases hd : s.dontRetry e with
        | false => rfl
        | true => exact absurd ((dontRetry_iff s e).1 hd) h
      simp [retryable, failedOutsideSet, hd, h]

theorem asksBackoff_unmarked (s : Specification σ ω) (e : GoError)
    (hd : s.dontRetry e = true) (hm : e.marked = none) : asksBackoff s (some e) = false := by
  simp [asksBackoff, hd, hm]

/-- C1: with a positive start delay and `maxRetries = n`, an operation that fails
`k ≤ n` times with errors whose cause is outside the no-retry set and then
succeeds makes `Try` return nil after exactly `k + 1` invocations (given enough
rounds for the library loop, `n < fuel`, and for either version of go-retry). -/
theorem try_succeeds_after_failures (s : Specification σ ω) (f : Tryable σ) (u : Bool) (st : σ)
    (obs : ω) (fresh fuel k : Nat) (hdelay : 0 < s.startDelay) (hfuel : s.maxRetries < fuel)
    (hk : k ≤ s.maxRetries)
    (hout : ∀ i, i < k → failedOutsideSet s (outcome f st i) = true)
    (hok : outcome f st k = none) :
    ∃ w, s.Try f u fuel st obs fresh = some (none, w) ∧ attempts w.trace = k + 1 := by
  have hfail : ∀ i, i < k → retryable s (outcome f st i) = true := by
    intro i hi
    rw [retryable_eq_failedOutsideSet]
    exact hout i hi
  obtain ⟨err, w, m, hTry, hm1, hm2, hres, hall, hex, -, -, -, hnofb, -⟩ :=
    Try_run s f u fuel st obs fresh hdelay hfuel
  have hmk : m = k + 1 := by
    by_contra hne
    rcases Nat.lt_or_gt_of_ne hne with hlt | hgt
    · have := hex (retryable_asksBackoff s _ (hfail (m - 1) (by omega)))
      omega
    · have := hall k (by omega)
      rw [hok] at this
      simp [asksBackoff] at this
  subst hmk
  have hlast : outcome f st (k + 1 - 1) = none := by simpa using hok
  obtain ⟨herr, -, -⟩ := hnofb (Or.inl hlast)
  rw [hlast] at herr
  have herr' : err = none := herr
  subst herr'
  exact ⟨w, hTry, by simp [attempts, hres]⟩

/-- Witness of C1: the policy of the tests and `failNTimes(1, nil)`, as in
`TestRetriesTwiceBeforeSuccessDoesNotReportError`. -/
theorem try_succeeds_after_failures_witness :
    ∃ w, testPolicy.Try (failNTimes 1 none) false 2 0 [] 100 = some (none, w) ∧
      attempts w.trace = 1 + 1 :=
  try_succeeds_after_failures testPolicy (failNTimes 1 none) false 0 [] 100 2 1
    (by decide) (by decide) (by decide) (by decide) (by decide)

/-- Counterexample to C2: the policy of the tests (no fallback, one retry) and
`failNTimes(2, nil)`, as in `TestErrorReportedAfterMultipleFailures`, with
go-retry v0.1.0. Both invocations fail with an error outside the no-retry set;
`Try` returns go-retry's marker around the error of the second invocation, which
is not that error. -/
theorem try_returns_the_marker :
    0 < testPolicy.startDelay ∧
    failedOutsideSet testPolicy (outcome (failNTimes 2 none) 0 0) = true ∧
    failedOutsideSet testPolicy (outcome (failNTimes 2 none) 0 1) = true ∧
    outcome (failNTimes 2 none) 0 1 = some (.errorString 1002 "attempt number 2") ∧
    (testPolicy.Try (failNTimes 2 none) false 2 0 [] 100).map Prod.fst
      = some (some (.retryableError 102 (.errorString 1002 "attempt number 2"))) ∧
    GoError.retryableError 102 (.errorString 1002 "attempt number 2")
      ≠ .errorString 1002 "attempt number 2" := by
  decide

/-- C2, amended: with a positive start delay, `maxRetries = n` and no fallback,
an operation whose first `n + 1` invocations all fail with errors whose cause is
outside the no-retry set is invoked exactly `n + 1` times, and `Try` returns a
non-nil error: with go-retry v0.1.0 the retryable marker of go-retry around the
error of invocation number `n + 1`, with a go-retry that unwraps at the end that
error itself. -/
theorem try_reports_last_failure (s : Specification σ ω) (f : Tryable σ) (u : Bool) (st : σ)
    (obs : ω) (fresh fuel : Nat) (hdelay : 0 < s.startDelay) (hfuel : s.maxRetries < fuel)
    (hnofb : s.fallback = none)
    (hout : ∀ i, i ≤ s.maxRetries → failedOutsideSet s (outcome f st i) = true) :
    ∃ e w, outcome f st s.maxRetries = some e ∧
      s.Try f u fuel st obs fresh
        = some (some (if u then e else .retryableError (fresh + 2) e), w) ∧
      attempts w.trace = s.maxRetries + 1 := by
  have hfail : ∀ i, i ≤ s.maxRetries → retryable s (outcome f st i) = true := by
    intro i hi
    rw [retryable_eq_failedOutsideSet]
    exact hout i hi
  obtain ⟨err, w, m, hTry, hm1, hm2, hres, hall, hex, -, -, -, hplain, -⟩ :=
    Try_run s f u fuel st obs fresh hdelay hfuel
  have hm : m = s.maxRetries + 1 :=
    hex (retryable_asksBackoff s _ (hfail (m - 1) (by omega)))
  subst hm
  obtain ⟨herr, -, -⟩ := hplain (Or.inr hnofb)
  have hlast := hfail s.maxRetries (le_refl _)
  cases hout : outcome f st s.maxRetries with
  | none => rw [hout] at hlast; simp [retryable] at hlast
  | some e =>
    refine ⟨e, w, rfl, ?_, by simp [attempts, hres]⟩
    rw [hout] at hlast
    rw [hTry, herr]
    simp only [Nat.add_sub_cancel, hout, loopResult_retryable s u (fresh + 2) e hlast]

/-- Witness of C2 as amended: the policy of the tests and `failNTimes(2, nil)`, as
in `TestErrorReportedAfterMultipleFailures`, with go-retry v0.1.0. -/
theorem try_reports_last_failure_witness :
    ∃ e w, outcome (failNTimes 2 none) 0 testPolicy.maxRetries = some e ∧
      testPolicy.Try (failNTimes 2 none) false 2 0 [] 100
        = some (some (if false then e else .retryableError (100 + 2) e), w) ∧
      attempts w.trace = testPolicy.maxRetries + 1 :=
  try_reports_last_failure testPolicy (failNTimes 2 none) false 0 [] 100 2
    (by decide) (by decide) rfl (by decide)

/-- Counterexample to C3. First the policy of `TestFailFastOnSpecificErrors`
with a fallback that succeeds: the first invocation fails with
`errorNotToRetryOn`, whose cause is in the no-retry set, and `Try` returns nil,
not that error. Then a policy without fallback whose no-retry set holds an error
that carries go-retry's marker: the first invocation fails with it, go-retry
retries, the second invocation succeeds and `Try` returns nil. -/
theorem try_dontRetry_error_replaced_by_fallback :
    (0 < failFastFallbackPolicy.startDelay ∧
      outcome (failNTimes 1 (some errorNotToRetryOn)) 0 0 = some errorNotToRetryOn ∧
      errors.Cause (some errorNotToRetryOn) ∈ failFastFallbackPolicy.dontRetryErrorSet ∧
      (failFastFallbackPolicy.Try (failNTimes 1 (some errorNotToRetryOn)) false 2 0 [] 100).map
        Prod.fst = some none) ∧
    (0 < markedPolicy.startDelay ∧
      outcome (failNTimes 1 (some markedError)) 0 0 = some markedError ∧
      errors.Cause (some markedError) ∈ markedPolicy.dontRetryErrorSet ∧
      (markedPolicy.Try (failNTimes 1 (some markedError)) false 3 0 [] 100).map
        Prod.fst = some none) := by
  decide

/-- C3, amended: with a positive start delay and no fallback configured, if the
first invocation fails with an error whose cause is in the no-retry set and which
carries no marker of go-retry, `Try` returns exactly that error, whatever
`maxRetries` and the error handler are; with a fallback configured `Try` returns
instead what the fallback returned, wrapped by `errors.Wrap` (nil when the
fallback succeeds). -/
theorem try_returns_dontRetry_error (s : Specification σ ω) (f : Tryable σ) (u : Bool) (st : σ)
    (obs : ω) (fresh fuel : Nat) (e : GoError) (hdelay : 0 < s.startDelay)
    (hfuel : s.maxRetries < fuel) (hfirst : outcome f st 0 = some e)
    (hset : errors.Cause (some e) ∈ s.dontRetryErrorSet) (hmark : e.marked = none) :
    ∃ err w, s.Try f u fuel st obs fresh = some (err, w) ∧
      (s.fallback = none → err = some e) ∧
      (∀ fb, s.fallback = some fb →
        err = errors.Wrap (fb (stateAfter f st 1)).1 "error in fallback" fresh) := by
  obtain ⟨err, w, m, hTry, hm1, hm2, hres, hall, hex, -, -, -, hplain, hfbk⟩ :=
    Try_run s f u fuel st obs fresh hdelay hfuel
  have hd := (dontRetry_iff s e).2 hset
  have hm : m = 1 := by
    by_contra hne
    have := hall 0 (by omega)
    rw [hfirst, asksBackoff_unmarked s e hd hmark] at this
    cases this
  subst hm
  have hlast : outcome f st (1 - 1) = some e := hfirst
  refine ⟨err, w, hTry, ?_, ?_⟩
  · intro hnofb
    rw [(hplain (Or.inr hnofb)).1, hlast, loopResult_dontRetry s u _ e hd hmark]
  · intro fb hfb
    exact (hfbk fb (by rw [hlast]; simp) hfb).1

/-- Witness of C3 as amended: `TestFailFastOnSpecificErrors`. -/
theorem try_returns_dontRetry_error_witness :
    ∃ err w, failFastPolicy.Try (failNTimes 1 (some errorNotToRetryOn)) false 2 0 [] 100
        = some (err, w) ∧
      (failFastPolicy.fallback = none → err = some errorNotToRetryOn) ∧
      (∀ fb, failFastPolicy.fallback = some fb →
        err = errors.Wrap (fb (stateAfter (failNTimes 1 (some errorNotToRetryOn)) 0 1)).1
          "error in fallback" 100) :=
  try_returns_dontRetry_error failFastPolicy (failNTimes 1 (some errorNotToRetryOn)) false 0 []
    100 2 errorNotToRetryOn (by decide) (by decide) (by decide) (by decide) (by decide)

/-- Counterexample to C4, at two inputs. The policy of
`TestFailFastOnSpecificErrors` with a fallback: the only invocation fails with
`errorNotToRetryOn`, whose cause is in the no-retry set, and the fallback is
invoked right after it. The policy with `DontRetryOn(markedError)` and a fallback,
on an operation that fails once with `markedError` and then succeeds: the failure
has its cause in the no-retry set, go-retry finds its marker on the error and
retries, the second invocation succeeds and the fallback is not invoked; so the
fallback does not follow every failure of the no-retry set either. -/
theorem dontRetry_failure_still_runs_fallback :
    (0 < failFastFallbackPolicy.startDelay ∧
      failFastFallbackPolicy.fallback.isSome = true ∧
      errors.Cause (some errorNotToRetryOn) ∈ failFastFallbackPolicy.dontRetryErrorSet ∧
      (failFastFallbackPolicy.Try (failNTimes 1 (some errorNotToRetryOn)) false 2 0 [] 100).map
        (fun r => r.2.trace)
        = some [.attempt (some errorNotToRetryOn), .fallback none] ∧
      (failFastFallbackPolicy.Try (failNTimes 1 (some errorNotToRetryOn)) false 2 0 [] 100).map
        (fun r => fallbacks r.2.trace) = some 1) ∧
    (0 < (markedPolicy.WithFallBack (some (fallbackReturning none))).startDelay ∧
      (markedPolicy.WithFallBack (some (fallbackReturning none))).fallback.isSome = true ∧
      errors.Cause (some markedError)
        ∈ (markedPolicy.WithFallBack (some (fallbackReturning none))).dontRetryErrorSet ∧
      ((markedPolicy.WithFallBack (some (fallbackReturning none))).Try
          (failNTimes 1 (some markedError)) false 3 0 [] 100).map (fun r => (r.1, r.2.trace))
        = some (none, [.attempt (some markedError), .sleep 1000000, .attempt none])) := by
  decide

/-- C4, amended: with a positive start delay and a fallback configured, if an
invocation fails with an error whose cause is in the no-retry set and which
carries no marker of go-retry, the fallback is invoked exactly once, as the last
call of that `Try`, and `Try` returns what the fallback returned wrapped by
`errors.Wrap`: the no-retry path does not bypass the fallback. -/
theorem dontRetry_failure_runs_fallback (s : Specification σ ω) (f : Tryable σ) (u : Bool)
    (st : σ) (obs : ω) (fresh fuel : Nat) (fb : Tryable σ) (hdelay : 0 < s.startDelay)
    (hfuel : s.maxRetries < fuel) (hfb : s.fallback = some fb) :
    ∃ err w, s.Try f u fuel st obs fresh = some (err, w) ∧
      ∀ e, Event.attempt (some e) ∈ w.trace → errors.Cause (some e) ∈ s.dontRetryErrorSet →
        e.marked = none →
        fallbacks w.trace = 1 ∧
        ∃ r, w.trace.getLast? = some (.fallback r) ∧
          err = errors.Wrap r "error in fallback" fresh := by
  obtain ⟨err, w, m, hTry, hm1, hm2, hres, hall, hex, -, -, -, -, hfbk⟩ :=
    Try_run s f u fuel st obs fresh hdelay hfuel
  refine ⟨err, w, hTry, ?_⟩
  intro e hmem hcause hmark
  have hset := (dontRetry_iff s e).2 hcause
  have hin := attempt_mem_results _ _ hmem
  rw [hres, List.mem_map] at hin
  obtain ⟨i, hi, hout⟩ := hin
  rw [List.mem_range] at hi
  have him : i = m - 1 := by
    by_contra hne
    have := hall i (by omega)
    rw [hout, asksBackoff_unmarked s e hset hmark] at this
    cases this
  subst him
  obtain ⟨h1, h2, h3, -⟩ := hfbk fb (by rw [hout]; simp) hfb
  exact ⟨by simp [fallbacks, h2], _, h3, h1⟩

/-- Witness of C4 as amended: the policy of `TestFailFastOnSpecificErrors` with a
fallback that succeeds; the run is the one invocation, which fails with the
registered error, and the fallback. -/
theorem dontRetry_failure_runs_fallback_witness :
    (∃ err w, failFastFallbackPolicy.Try (failNTimes 1 (some errorNotToRetryOn)) false 2 0 []
        100 = some (err, w) ∧
      ∀ e, Event.attempt (some e) ∈ w.trace →
        errors.Cause (some e) ∈ failFastFallbackPolicy.dontRetryErrorSet → e.marked = none →
        fallbacks w.trace = 1 ∧
        ∃ r, w.trace.getLast? = some (.fallback r) ∧
          err = errors.Wrap r "error in fallback" 100) ∧
    (failFastFallbackPolicy.Try (failNTimes 1 (some errorNotToRetryOn)) false 2 0 [] 100).map
      (fun r => r.2.trace) = some [.attempt (some errorNotToRetryOn), .fallback none] ∧
    errors.Cause (some errorNotToRetryOn) ∈ failFastFallbackPolicy.dontRetryErrorSet ∧
    errorNotToRetryOn.marked = none :=
  ⟨dontRetry_failure_runs_fallback failFastFallbackPolicy
    (failNTimes 1 (some errorNotToRetryOn)) false 0 [] 100 2 (fallbackReturning none)
    (by decide) (by decide) rfl, by decide, by decide, by decide⟩

/-- C5 at its failing input: the policy of the tests with two retries and
`DontRetryOn(markedError)`, where `markedError` is an error made by go-retry's
`RetryableError`, and an operation that always returns `markedError`. The cause of
that error is in the no-retry set and the closure of `Try` returns it as it is,
but `Do` finds the marker on it and retries: the operation is invoked three times,
with either version of go-retry. -/
theorem marked_error_is_retried :
    0 < markedPolicy.startDelay ∧
    errors.Cause (some markedError) = some markedError ∧
    some markedError ∈ markedPolicy.dontRetryErrorSet ∧
    markedPolicy.dontRetry markedError = true ∧
    (markedPolicy.Try (failNTimes 9 (some markedError)) false 3 0 [] 100).map
      (fun r => r.2.trace)
      = some [.attempt (some markedError), .sleep 1000000, .attempt (some markedError),
          .sleep 2000000, .attempt (some markedError)] ∧
    (markedPolicy.Try (failNTimes 9 (some markedError)) false 3 0 [] 100).map
      (fun r => attempts r.2.trace) = some 3 ∧
    (markedPolicy.Try (failNTimes 9 (some markedError)) true 3 0 [] 100).map
      (fun r => attempts r.2.trace) = some 3 := by
  decide

/-- C6: with a start delay that is zero or negative, `Try` returns a non-nil error
and calls nothing: no invocation of the operation, no call of the error handler,
no call of the fallback even when one is configured; the states the closures
close over are untouched. This holds for every bound on the rounds of the loop. -/
theorem try_rejects_nonpositive_delay (s : Specification σ ω) (f : Tryable σ) (u : Bool)
    (st : σ) (obs : ω) (fresh fuel : Nat) (hdelay : s.startDelay ≤ 0) :
    ∃ e w, s.Try f u fuel st obs fresh = some (some e, w) ∧
      w.trace = [] ∧ attempts w.trace = 0 ∧ handled w.trace = [] ∧ fallbacks w.trace = 0 ∧
      w.st = st ∧ w.obs = obs :=
  ⟨_, _, Try_config_error s f u fuel st obs fresh hdelay, rfl, rfl, rfl, rfl, rfl, rfl⟩

/-- Witness of C6: the policy of `TestFallBackFunctionIsCalled` with a start delay
of zero, and no round allowed to the loop. -/
theorem try_rejects_nonpositive_delay_witness :
    ∃ e w, ((fallbackPolicy none).FirstRetryDelay 0).Try (failNTimes 2 none) false 0 0 [] 100
        = some (some e, w) ∧
      w.trace = [] ∧ attempts w.trace = 0 ∧ handled w.trace = [] ∧ fallbacks w.trace = 0 ∧
      w.st = 0 ∧ w.obs = [] :=
  try_rejects_nonpositive_delay ((fallbackPolicy none).FirstRetryDelay 0) (failNTimes 2 none)
    false 0 [] 100 0 (by decide)

/-- C7: with a positive start delay, `maxRetries = n` and a fallback configured,
if all `n + 1` invocations fail with errors whose cause is outside the no-retry
set, the fallback is invoked exactly once, as the last call and so after the last
invocation of the operation, and `Try` returns nil when the fallback returns no
error. -/
theorem fallback_runs_once_after_exhaustion (s : Specification σ ω) (f : Tryable σ) (u : Bool)
    (st : σ) (obs : ω) (fresh fuel : Nat) (fb : Tryable σ) (hdelay : 0 < s.startDelay)
    (hfuel : s.maxRetries < fuel) (hfb : s.fallback = some fb)
    (hout : ∀ i, i ≤ s.maxRetries → failedOutsideSet s (outcome f st i) = true) :
    ∃ err w, s.Try f u fuel st obs fresh = some (err, w) ∧
      attempts w.trace = s.maxRetries + 1 ∧
      fallbackResults w.trace = [(fb (stateAfter f st (s.maxRetries + 1))).1] ∧
      fallbacks w.trace = 1 ∧
      w.trace.getLast? = some (.fallback (fb (stateAfter f st (s.maxRetries + 1))).1) ∧
      ((fb (stateAfter f st (s.maxRetries + 1))).1 = none → err = none) := by
  have hfail : ∀ i, i ≤ s.maxRetries → retryable s (outcome f st i) = true := by
    intro i hi
    rw [retryable_eq_failedOutsideSet]
    exact hout i hi
  obtain ⟨err, w, m, hTry, hm1, hm2, hres, hall, hex, -, -, -, -, hfbk⟩ :=
    Try_run s f u fuel st obs fresh hdelay hfuel
  have hm : m = s.maxRetries + 1 :=
    hex (retryable_asksBackoff s _ (hfail (m - 1) (by omega)))
  subst hm
  have hlast : outcome f st (s.maxRetries + 1 - 1) ≠ none := by
    have := hfail s.maxRetries (le_refl _)
    intro h
    simp at h
    rw [h] at this
    simp [retryable] at this
  obtain ⟨h1, h2, h3, -⟩ := hfbk fb hlast hfb
  refine ⟨err, w, hTry, by simp [attempts, hres], h2, by simp [fallbacks, h2], h3, ?_⟩
  intro hnone
  rw [h1, hnone]
  rfl

/-- Witness of C7: `TestFallBackFunctionIsCalled`. -/
theorem fallback_runs_once_after_exhaustion_witness :
    ∃ err w, (fallbackPolicy none).Try (failNTimes 2 none) false 2 0 [] 100 = some (err, w) ∧
      attempts w.trace = (fallbackPolicy none).maxRetries + 1 ∧
      fallbackResults w.trace
        = [(fallbackReturning none
            (stateAfter (failNTimes 2 none) 0 ((fallbackPolicy none).maxRetries + 1))).1] ∧
      fallbacks w.trace = 1 ∧
      w.trace.getLast? = some (.fallback (fallbackReturning none
        (stateAfter (failNTimes 2 none) 0 ((fallbackPolicy none).maxRetries + 1))).1) ∧
      ((fallbackReturning none
        (stateAfter (failNTimes 2 none) 0 ((fallbackPolicy none).maxRetries + 1))).1 = none →
        err = none) :=
  fallback_runs_once_after_exhaustion (fallbackPolicy none) (failNTimes 2 none) false 0 [] 100 2
    (fallbackReturning none) (by decide) (by decide) rfl (by decide)

/-- C8: with a positive start delay and a fallback configured, if all attempts are
exhausted and the fallback returns an error `e`, `Try` returns the non-nil error
that `errors.Wrap` makes of `e` with the message "error in fallback" (its cause
is `e`); it is not the error of the last attempt (the wrapper is a new object,
`fresh` is not the address of that error); this holds for every `e`, in the
no-retry set or not, and the fallback is invoked once only. -/
theorem fallback_error_is_wrapped (s : Specification σ ω) (f : Tryable σ) (u : Bool) (st : σ)
    (obs : ω) (fresh fuel : Nat) (fb : Tryable σ) (e : GoError) (hdelay : 0 < s.startDelay)
    (hfuel : s.maxRetries < fuel) (hfb : s.fallback = some fb)
    (hout : ∀ i, i ≤ s.maxRetries → failedOutsideSet s (outcome f st i) = true)
    (hres : (fb (stateAfter f st (s.maxRetries + 1))).1 = some e)
    (hfresh : ∀ l, outcome f st s.maxRetries = some l → l.addr ≠ some fresh) :
    ∃ w, s.Try f u fuel st obs fresh
        = some (some (.withStack fresh e "error in fallback"), w) ∧
      some (GoError.withStack fresh e "error in fallback") ≠ outcome f st s.maxRetries ∧
      fallbackResults w.trace = [some e] ∧
      fallbacks w.trace = 1 ∧
      attempts w.trace = s.maxRetries + 1 := by
  have hfail : ∀ i, i ≤ s.maxRetries → retryable s (outcome f st i) = true := by
    intro i hi
    rw [retryable_eq_failedOutsideSet]
    exact hout i hi
  obtain ⟨err, w, m, hTry, hm1, hm2, hres1, hall, hex, -, -, -, -, hfbk⟩ :=
    Try_run s f u fuel st obs fresh hdelay hfuel
  have hm : m = s.maxRetries + 1 :=
    hex (retryable_asksBackoff s _ (hfail (m - 1) (by omega)))
  subst hm
  have hlast : outcome f st (s.maxRetries + 1 - 1) ≠ none := by
    have := hfail s.maxRetries (le_refl _)
    intro h
    simp at h
    rw [h] at this
    simp [retryable] at this
  obtain ⟨h1, h2, -, -⟩ := hfbk fb hlast hfb
  rw [hres] at h1 h2
  refine ⟨w, ?_, ?_, h2, by simp [fallbacks, h2], by simp [attempts, hres1]⟩
  · rw [hTry, h1]
    rfl
  · intro heq
    exact hfresh _ heq.symm rfl

/-- Witness of C8: four retries, every attempt fails, and the fallback fails with
an error that is in the no-retry set of the policy. -/
theorem fallback_error_is_wrapped_witness :
    ∃ w, failingFallbackPolicy.Try (failNTimes 9 none) false 5 0 [] 100
        = some (some (.withStack 100 errorNotToRetryOn "error in fallback"), w) ∧
      some (GoError.withStack 100 errorNotToRetryOn "error in fallback")
        ≠ outcome (failNTimes 9 none) 0 failingFallbackPolicy.maxRetries ∧
      fallbackResults w.trace = [some errorNotToRetryOn] ∧
      fallbacks w.trace = 1 ∧
      attempts w.trace = failingFallbackPolicy.maxRetries + 1 :=
  fallback_error_is_wrapped failingFallbackPolicy (failNTimes 9 none) false 0 [] 100 5
    (fallbackReturning (some errorNotToRetryOn)) errorNotToRetryOn (by decide) (by decide) rfl
    (by decide) rfl (by decide)

/-- C9: with a positive start delay and an error handler configured, the calls of
the handler during `Try` are, in order, the errors as the operation returned them
of exactly the failed invocations whose cause is no member of the no-retry set,
the last exhausted attempt included; the handler is called neither for a failure
whose cause is in the no-retry set nor for a success. -/
theorem handler_sees_retryable_failures (s : Specification σ ω) (f : Tryable σ) (u : Bool)
    (st : σ) (obs : ω) (fresh fuel : Nat) (h : ErrorFunc ω) (hdelay : 0 < s.startDelay)
    (hfuel : s.maxRetries < fuel) (hh : s.attemptErrorHandler = some h) :
    ∃ err w, s.Try f u fuel st obs fresh = some (err, w) ∧
      handled w.trace = (results w.trace).filter (failedOutsideSet s) ∧
      w.obs = ((results w.trace).filter (failedOutsideSet s)).foldl (fun o e => h e o) obs ∧
      (∀ x, x ∈ handled w.trace →
        ∃ e, x = some e ∧ errors.Cause (some e) ∉ s.dontRetryErrorSet) := by
  obtain ⟨err, w, m, hTry, -, -, -, -, -, hhd, hobs, -, -, -⟩ :=
    Try_run s f u fuel st obs fresh hdelay hfuel
  rw [hh] at hhd hobs
  have hfun : retryable s = failedOutsideSet s := funext (retryable_eq_failedOutsideSet s)
  simp only [retried_eq, hfun] at hhd hobs
  refine ⟨err, w, hTry, hhd, hobs, ?_⟩
  intro x hx
  rw [hhd, List.mem_filter] at hx
  cases x with
  | none => simp [failedOutsideSet] at hx
  | some e => exact ⟨e, rfl, by simpa [failedOutsideSet] using hx.2⟩

/-- Witness of C9: the policy of `TestErrorHandlerFunctionIsCalled` with two
retries and `DontRetryOn(errorNotToRetryOn)`, on an operation that fails with
another error and then with `errorNotToRetryOn`: the handler is called once, with
the first error. -/
theorem handler_sees_retryable_failures_witness :
    (∃ err w, handlerFailFastPolicy.Try
        (scripted [some otherError, some errorNotToRetryOn]) false 3 0 [] 100 = some (err, w) ∧
      handled w.trace = (results w.trace).filter (failedOutsideSet handlerFailFastPolicy) ∧
      w.obs = ((results w.trace).filter (failedOutsideSet handlerFailFastPolicy)).foldl
        (fun o e => errorHandler e o) [] ∧
      (∀ x, x ∈ handled w.trace →
        ∃ e, x = some e ∧ errors.Cause (some e) ∉ handlerFailFastPolicy.dontRetryErrorSet)) ∧
    (handlerFailFastPolicy.Try (scripted [some otherError, some errorNotToRetryOn]) false 3 0
        [] 100).map (fun r => (results r.2.trace, handled r.2.trace, r.2.obs))
      = some ([some otherError, some errorNotToRetryOn], [some otherError], [some otherError]) ∧
    errors.Cause (some errorNotToRetryOn) ∈ handlerFailFastPolicy.dontRetryErrorSet ∧
    errors.Cause (some otherError) ∉ handlerFailFastPolicy.dontRetryErrorSet :=
  ⟨handler_sees_retryable_failures handlerFailFastPolicy
    (scripted [some otherError, some errorNotToRetryOn]) false 0 [] 100 3 errorHandler
    (by decide) (by decide) rfl, by decide, by decide, by decide⟩

/-- C10: with a positive start delay, whatever the operation returns, one call of
`Try` invokes it at least once and at most `maxRetries + 1` times. -/
theorem attempts_within_budget (s : Specification σ ω) (f : Tryable σ) (u : Bool) (st : σ)
    (obs : ω) (fresh fuel : Nat) (hdelay : 0 < s.startDelay) (hfuel : s.maxRetries < fuel) :
    ∃ err w, s.Try f u fuel st obs fresh = some (err, w) ∧
      1 ≤ attempts w.trace ∧ attempts w.trace ≤ s.maxRetries + 1 := by
  obtain ⟨err, w, m, hTry, hm1, hm2, hres, -, -, -, -, -, -, -⟩ :=
    Try_run s f u fuel st obs fresh hdelay hfuel
  exact ⟨err, w, hTry, by simp [attempts, hres, hm1], by simp [attempts, hres, hm2]⟩

/-- Witness of C10: the policy of the tests, an operation that always fails, and
many more rounds allowed to the loop than the policy has retries. -/
theorem attempts_within_budget_witness :
    ∃ err w, testPolicy.Try (failNTimes 9 none) false 50 0 [] 100 = some (err, w) ∧
      1 ≤ attempts w.trace ∧ attempts w.trace ≤ testPolicy.maxRetries + 1 :=
  attempts_within_budget testPolicy (failNTimes 9 none) false 0 [] 100 50 (by decide) (by decide)
/-- C11: each of `WithMaxRetries`, `FirstRetryDelay`, `WithFallBack` and
`OnAttemptFailure` returns a policy whose own field is the argument and whose
other four fields are those of `p`, for every argument (zero retries and delays
that are not positive included: nothing is checked); the receiver is passed by
value, so `p` is as it was. -/
theorem setters_change_one_field (p : Specification σ ω) (retries : Nat) (t : Int)
    (fb : Option (Tryable σ)) (h : Option (ErrorFunc ω)) :
    ((p.WithMaxRetries retries).maxRetries = retries ∧
      (p.WithMaxRetries retries).startDelay = p.startDelay ∧
      (p.WithMaxRetries retries).fallback = p.fallback ∧
      (p.WithMaxRetries retries).attemptErrorHandler = p.attemptErrorHandler ∧
      (p.WithMaxRetries retries).dontRetryErrorSet = p.dontRetryErrorSet) ∧
    ((p.FirstRetryDelay t).startDelay = t ∧
      (p.FirstRetryDelay t).maxRetries = p.maxRetries ∧
      (p.FirstRetryDelay t).fallback = p.fallback ∧
      (p.FirstRetryDelay t).attemptErrorHandler = p.attemptErrorHandler ∧
      (p.FirstRetryDelay t).dontRetryErrorSet = p.dontRetryErrorSet) ∧
    ((p.WithFallBack fb).fallback = fb ∧
      (p.WithFallBack fb).maxRetries = p.maxRetries ∧
      (p.WithFallBack fb).startDelay = p.startDelay ∧
      (p.WithFallBack fb).attemptErrorHandler = p.attemptErrorHandler ∧
      (p.WithFallBack fb).dontRetryErrorSet = p.dontRetryErrorSet) ∧
    ((p.OnAttemptFailure h).attemptErrorHandler = h ∧
      (p.OnAttemptFailure h).maxRetries = p.maxRetries ∧
      (p.OnAttemptFailure h).startDelay = p.startDelay ∧
      (p.OnAttemptFailure h).fallback = p.fallback ∧
      (p.OnAttemptFailure h).dontRetryErrorSet = p.dontRetryErrorSet) :=
  ⟨⟨rfl, rfl, rfl, rfl, rfl⟩, ⟨rfl, rfl, rfl, rfl, rfl⟩, ⟨rfl, rfl, rfl, rfl, rfl⟩,
    ⟨rfl, rfl, rfl, rfl, rfl⟩⟩

/-- C12: `p.DontRetryOn(xs...)` returns a policy whose no-retry set is the set of
`p` followed by `xs` (what was registered stays, in place and in order) and whose
other fields are those of `p`; so `p.DontRetryOn(xs...).DontRetryOn(ys...)` and
`p.DontRetryOn(xs ++ ys...)` have the same no-retry set. Stated on the slice in
memory: the policy read back after the call is the policy read before it with
`xs` appended to its list. -/
theorem dontRetryOn_appends (p : Memory.Specification σ ω) (h : Heap)
    (xs ys : List (Option GoError)) (hv : p.dontRetryErrorSet.valid h) :
    (p.DontRetryOn h xs).1.load (p.DontRetryOn h xs).2 = (p.load h).DontRetryOn xs ∧
    ((p.load h).DontRetryOn xs).dontRetryErrorSet = (p.load h).dontRetryErrorSet ++ xs ∧
    ((p.load h).DontRetryOn xs).maxRetries = (p.load h).maxRetries ∧
    ((p.load h).DontRetryOn xs).startDelay = (p.load h).startDelay ∧
    ((p.load h).DontRetryOn xs).fallback = (p.load h).fallback ∧
    ((p.load h).DontRetryOn xs).attemptErrorHandler = (p.load h).attemptErrorHandler ∧
    (((p.DontRetryOn h xs).1.DontRetryOn (p.DontRetryOn h xs).2 ys).1.load
        ((p.DontRetryOn h xs).1.DontRetryOn (p.DontRetryOn h xs).2 ys).2).dontRetryErrorSet
      = ((p.DontRetryOn h (xs ++ ys)).1.load (p.DontRetryOn h (xs ++ ys)).2).dontRetryErrorSet ∧
    (((p.load h).DontRetryOn xs).DontRetryOn ys).dontRetryErrorSet
      = ((p.load h).DontRetryOn (xs ++ ys)).dontRetryErrorSet := by
  have h1 := Slice.append_elems p.dontRetryErrorSet h xs hv
  have hv1 := Slice.append_valid p.dontRetryErrorSet h xs hv
  have h2 := Slice.append_elems (p.dontRetryErrorSet.append h xs).1
    (p.dontRetryErrorSet.append h xs).2 ys hv1
  have h3 := Slice.append_elems p.dontRetryErrorSet h (xs ++ ys) hv
  refine ⟨?_, rfl, rfl, rfl, rfl, rfl, ?_, ?_⟩
  · simp only [Memory.Specification.load, Memory.Specification.DontRetryOn, DontRetryOn, h1]
  · simp only [Memory.Specification.load, Memory.Specification.DontRetryOn, h2, h1, h3,
      List.append_assoc]
  · simp only [DontRetryOn, List.append_assoc]

/-- Witness of C12: the template with three registered errors, whose slice has
room for one more, then `DontRetryOn` with one error and again with one. -/
theorem dontRetryOn_appends_witness :
    (Memory.template.1.DontRetryOn Memory.template.2 [Memory.sentinel 21]).1.load
        (Memory.template.1.DontRetryOn Memory.template.2 [Memory.sentinel 21]).2
      = (Memory.template.1.load Memory.template.2).DontRetryOn [Memory.sentinel 21] ∧
    ((Memory.template.1.load Memory.template.2).DontRetryOn
        [Memory.sentinel 21]).dontRetryErrorSet
      = (Memory.template.1.load Memory.template.2).dontRetryErrorSet ++ [Memory.sentinel 21] ∧
    ((Memory.template.1.load Memory.template.2).DontRetryOn [Memory.sentinel 21]).maxRetries
      = (Memory.template.1.load Memory.template.2).maxRetries ∧
    ((Memory.template.1.load Memory.template.2).DontRetryOn [Memory.sentinel 21]).startDelay
      = (Memory.template.1.load Memory.template.2).startDelay ∧
    ((Memory.template.1.load Memory.template.2).DontRetryOn [Memory.sentinel 21]).fallback
      = (Memory.template.1.load Memory.template.2).fallback ∧
    ((Memory.template.1.load Memory.template.2).DontRetryOn
        [Memory.sentinel 21]).attemptErrorHandler
      = (Memory.template.1.load Memory.template.2).attemptErrorHandler ∧
    (((Memory.template.1.DontRetryOn Memory.template.2 [Memory.sentinel 21]).1.DontRetryOn
          (Memory.template.1.DontRetryOn Memory.template.2 [Memory.sentinel 21]).2
          [Memory.sentinel 22]).1.load
        ((Memory.template.1.DontRetryOn Memory.template.2 [Memory.sentinel 21]).1.DontRetryOn
          (Memory.template.1.DontRetryOn Memory.template.2 [Memory.sentinel 21]).2
          [Memory.sentinel 22]).2).dontRetryErrorSet
      = ((Memory.template.1.DontRetryOn Memory.template.2
            ([Memory.sentinel 21] ++ [Memory.sentinel 22])).1.load
          (Memory.template.1.DontRetryOn Memory.template.2
            ([Memory.sentinel 21] ++ [Memory.sentinel 22])).2).dontRetryErrorSet ∧
    (((Memory.template.1.load Memory.template.2).DontRetryOn [Memory.sentinel 21]).DontRetryOn
        [Memory.sentinel 22]).dontRetryErrorSet
      = ((Memory.template.1.load Memory.template.2).DontRetryOn
          ([Memory.sentinel 21] ++ [Memory.sentinel 22])).dontRetryErrorSet :=
  dontRetryOn_appends Memory.template.1 Memory.template.2 [Memory.sentinel 21]
    [Memory.sentinel 22] ⟨by decide, by decide⟩

/-- C13: `Configure()` is the policy with `maxRetries = 1`, a start delay of one
second, no fallback, no error handler and an empty no-retry set; so
`Configure().Try(op)` invokes `op` at most twice, whatever `op` is. -/
theorem configure_defaults (f : Tryable σ) (u : Bool) (st : σ) (obs : ω) (fresh fuel : Nat)
    (hfuel : 1 < fuel) :
    (Configure : Specification σ ω).maxRetries = 1 ∧
    (Configure : Specification σ ω).startDelay = 1000000000 ∧
    (Configure : Specification σ ω).fallback = none ∧
    (Configure : Specification σ ω).attemptErrorHandler = none ∧
    (Configure : Specification σ ω).dontRetryErrorSet = [] ∧
    ∃ err w, (Configure : Specification σ ω).Try f u fuel st obs fresh = some (err, w) ∧
      attempts w.trace ≤ 2 := by
  refine ⟨rfl, rfl, rfl, rfl, rfl, ?_⟩
  obtain ⟨err, w, m, hTry, -, hm2, hres, -, -, -, -, -, -, -⟩ :=
    Try_run (Configure : Specification σ ω) f u fuel st obs fresh
      (show (0 : Int) < 1 * 1000000000 by decide) hfuel
  refine ⟨err, w, hTry, ?_⟩
  have h2 : m ≤ 2 := hm2
  simp [attempts, hres, h2]

/-- Witness of C13: `Configure()` and an operation that always fails. -/
theorem configure_defaults_witness :
    (Configure : Specification Int (List (Option GoError))).maxRetries = 1 ∧
    (Configure : Specification Int (List (Option GoError))).startDelay = 1000000000 ∧
    (Configure : Specification Int (List (Option GoError))).fallback = none ∧
    (Configure : Specification Int (List (Option GoError))).attemptErrorHandler = none ∧
    (Configure : Specification Int (List (Option GoError))).dontRetryErrorSet = [] ∧
    ∃ err w, (Configure : Specification Int (List (Option GoError))).Try (failNTimes 9 none)
        false 7 0 [] 100 = some (err, w) ∧ attempts w.trace ≤ 2 :=
  configure_defaults (failNTimes 9 none) false 0 [] 100 7 (by decide)

/-- C15: with a positive start delay, once an invocation of the operation returns
no error nothing more is called (no further invocation, no call of the handler
for that invocation, no fallback even when one is configured) and `Try` returns
nil. -/
theorem success_ends_try (s : Specification σ ω) (f : Tryable σ) (u : Bool) (st : σ)
    (obs : ω) (fresh fuel : Nat) (hdelay : 0 < s.startDelay) (hfuel : s.maxRetries < fuel) :
    ∃ err w, s.Try f u fuel st obs fresh = some (err, w) ∧
      ∀ pre post, w.trace = pre ++ Event.attempt none :: post → err = none ∧ post = [] := by
  obtain ⟨err, w, m, hTry, hm1, hm2, hlen, hall, hnone, hshape⟩ :=
    Try_shape s f u fuel st obs fresh hdelay hfuel
  refine ⟨err, w, hTry, ?_⟩
  intro pre post ht
  have hin : Event.attempt none ∈ w.trace := by rw [ht]; simp
  have hnotin : Event.attempt none ∉ rounds (fun i => attemptEvents s (outcome f st i)
      ++ [.sleep (Backoff.waitAt { state := (0, s.startDelay), Next := fibonacciNext }
        (0, s.startDelay) i)]) (m - 1) := by
    intro hmem
    obtain ⟨i, hi, hx⟩ := mem_rounds _ _ _ hmem
    have hr := hall i (by omega)
    rw [List.mem_append] at hx
    rcases hx with hx | hx
    · rw [attemptEvents, List.mem_cons] at hx
      rcases hx with hx | hx
      · rw [← Event.attempt.inj hx] at hr
        simp [asksBackoff] at hr
      · exact (results_handlerEvents s _).2.2.2 hx
    · rw [List.mem_singleton] at hx
      cases hx
  have hlast : outcome f st (m - 1) = none := by
    rw [hshape, List.mem_append, List.mem_append] at hin
    rcases hin with (hin | hin) | hin
    · exact absurd hin hnotin
    · rw [attemptEvents, List.mem_cons] at hin
      rcases hin with hin | hin
      · exact (Event.attempt.inj hin).symm
      · exact absurd hin (results_handlerEvents s _).2.2.2
    · simp at hin
  obtain ⟨herr, hfb⟩ := hnone hlast
  refine ⟨herr, ?_⟩
  have hw : w.trace = rounds (fun i => attemptEvents s (outcome f st i)
      ++ [.sleep (Backoff.waitAt { state := (0, s.startDelay), Next := fibonacciNext }
        (0, s.startDelay) i)]) (m - 1) ++ [Event.attempt none] := by
    rw [hshape, hfb, hlast]
    simp [attemptEvents, handlerEvents_not_retryable s none rfl]
  exact append_singleton_split _ pre post _ hnotin (hw.symm.trans ht)

/-- Witness of C15: the policy of the tests with a fallback and a handler, on an
operation that fails once and then succeeds. -/
theorem success_ends_try_witness :
    ∃ err w, ((fallbackPolicy none).OnAttemptFailure (some errorHandler)).Try
        (failNTimes 1 none) false 2 0 [] 100 = some (err, w) ∧
      ∀ pre post, w.trace = pre ++ Event.attempt none :: post → err = none ∧ post = [] :=
  success_ends_try ((fallbackPolicy none).OnAttemptFailure (some errorHandler))
    (failNTimes 1 none) false 0 [] 100 2 (by decide) (by decide)

/-- C16: with `maxRetries = 0` and a positive start delay, `Try` invokes the
operation exactly once and never waits, whether that invocation succeeds or
fails. -/
theorem zero_retries_single_attempt (s : Specification σ ω) (f : Tryable σ) (u : Bool)
    (st : σ) (obs : ω) (fresh fuel : Nat) (hmax : s.maxRetries = 0)
    (hdelay : 0 < s.startDelay) (hfuel : 0 < fuel) :
    ∃ err w, s.Try f u fuel st obs fresh = some (err, w) ∧
      attempts w.trace = 1 ∧ sleeps w.trace = [] := by
  obtain ⟨err, w, m, hTry, hm1, hm2, hres, -, -, -, -, hsl, -, -⟩ :=
    Try_run s f u fuel st obs fresh hdelay (by omega)
  have hm : m = 1 := by omega
  subst hm
  exact ⟨err, w, hTry, by simp [attempts, hres], List.length_eq_zero.mp (by simpa using hsl)⟩

/-- Witness of C16: the policy of the tests with `WithMaxRetries(0)` and an
operation that always fails. -/
theorem zero_retries_single_attempt_witness :
    ∃ err w, (testPolicy.WithMaxRetries 0).Try (failNTimes 9 none) false 3 0 [] 100
        = some (err, w) ∧
      attempts w.trace = 1 ∧ sleeps w.trace = [] :=
  zero_retries_single_attempt (testPolicy.WithMaxRetries 0) (failNTimes 9 none) false 0 [] 100 3
    rfl (by decide) (by decide)

theorem wrapInt64_inRange (x : Int) (h0 : -9223372036854775808 ≤ x)
    (h1 : x ≤ 9223372036854775807) : wrapInt64 x = x := by
  unfold wrapInt64
  norm_num
  omega

theorem asksBackoff_failed (s : Specification σ ω) (r : Option GoError)
    (h : asksBackoff s r = true) :
    ∃ e, r = some e ∧ (e.marked = none → errors.Cause (some e) ∉ s.dontRetryErrorSet) := by
  cases r with
  | none => simp [asksBackoff] at h
  | some e =>
    refine ⟨e, rfl, ?_⟩
    intro hmark hmem
    rw [asksBackoff_unmarked s e ((dontRetry_iff s e).2 hmem) hmark] at h
    cases h

/-- Counterexample to C18, at three inputs. The policy of the tests with two
retries (start delay 1 ms) and an operation that always fails: the two waits are
1 ms and 2 ms, where the delay law of the claim gives 1 ms and 1 ms. The same
policy with a start delay of `2 ^ 61` ns and four retries: the fourth wait is the
`int64` sum of `2 ^ 62` and `3 * 2 ^ 61`, which is negative, where the delay law
of the claim gives `3 * 2 ^ 61`. The policy with `DontRetryOn(markedError)` and an
operation that always fails with `markedError`: a wait follows each of the first
two attempts, which failed with an error of the no-retry set. -/
theorem second_wait_is_twice_the_delay :
    (0 < twoRetriesPolicy.startDelay ∧
      (twoRetriesPolicy.Try (failNTimes 9 none) false 3 0 [] 100).map
          (fun r => sleeps r.2.trace)
        = some [1000000, 2000000] ∧
      (List.range 2).map (specDelay twoRetriesPolicy.startDelay) = [1000000, 1000000]) ∧
    (((testPolicy.FirstRetryDelay 2305843009213693952).WithMaxRetries 4).startDelay
        = 2305843009213693952 ∧
      (((testPolicy.FirstRetryDelay 2305843009213693952).WithMaxRetries 4).Try
          (failNTimes 9 none) false 5 0 [] 100).map (fun r => sleeps r.2.trace)
        = some [2305843009213693952, 4611686018427387904, 6917529027641081856,
            -6917529027641081856] ∧
      (List.range 4).map (specDelay 2305843009213693952)
        = [2305843009213693952, 2305843009213693952, 4611686018427387904,
            6917529027641081856]) ∧
    (errors.Cause (some markedError) ∈ markedPolicy.dontRetryErrorSet ∧
      markedError.marked ≠ none ∧
      (markedPolicy.Try (failNTimes 9 (some markedError)) false 3 0 [] 100).map
          (fun r => r.2.trace)
        = some [.attempt (some markedError), .sleep 1000000,
            .attempt (some markedError), .sleep 2000000,
            .attempt (some markedError)]) := by
  decide

/-- C18, amended: with a start delay `d > 0` that is a 64-bit duration, wait
number `k` of `Try` (from 0) lasts `fibonacciWait d k`, where the first is `d`,
the second `d + d` and each later one the sum of the two before, every sum being
an `int64` addition: the sum itself while it is within the 64-bit range, wrapped
around when it is not. The calls of a run are, for each invocation but the last:
the invocation, the call of the handler, one wait; then the last invocation with
its handler call, then the fallback if it runs. Each invocation but the last is a
failure, and one whose root cause is outside the no-retry set when its error
carries no marker of go-retry. So a wait comes only between such a failed
invocation and the next invocation, and never after the last one. -/
theorem backoff_waits (s : Specification σ ω) (f : Tryable σ) (u : Bool) (st : σ) (obs : ω)
    (fresh fuel : Nat) (hdelay : 0 < s.startDelay)
    (hduration : s.startDelay ≤ 9223372036854775807) (hfuel : s.maxRetries < fuel) :
    (fibonacciWait s.startDelay 0 = s.startDelay ∧
      fibonacciWait s.startDelay 1 = wrapInt64 (s.startDelay + s.startDelay) ∧
      (∀ k, fibonacciWait s.startDelay (k + 2)
        = wrapInt64 (fibonacciWait s.startDelay (k + 1) + fibonacciWait s.startDelay k)) ∧
      (∀ x : Int, -9223372036854775808 ≤ x → x ≤ 9223372036854775807 → wrapInt64 x = x) ∧
      (∀ x : Int, -9223372036854775808 ≤ wrapInt64 x ∧ wrapInt64 x ≤ 9223372036854775807 ∧
        (wrapInt64 x - x) % 18446744073709551616 = 0)) ∧
    ∃ err w, s.Try f u fuel st obs fresh = some (err, w) ∧
      sleeps w.trace = (List.range (attempts w.trace - 1)).map (fibonacciWait s.startDelay) ∧
      (∀ i, i + 1 < attempts w.trace → ∃ e, outcome f st i = some e ∧
        (e.marked = none → errors.Cause (some e) ∉ s.dontRetryErrorSet)) ∧
      w.trace
        = rounds (fun i => attemptEvents s (outcome f st i)
            ++ [.sleep (fibonacciWait s.startDelay i)]) (attempts w.trace - 1)
          ++ attemptEvents s (outcome f st (attempts w.trace - 1))
          ++ (fallbackResults w.trace).map Event.fallback := by
  refine ⟨⟨rfl, rfl, fun k => rfl, wrapInt64_inRange, ?_⟩, ?_⟩
  · intro x
    unfold wrapInt64
    norm_num
    omega
  obtain ⟨err, w, m, hTry, hm1, hm2, hlen, hall, -, hshape⟩ :=
    Try_shape s f u fuel st obs fresh hdelay hfuel
  have hcongr : rounds (fun i => attemptEvents s (outcome f st i)
        ++ [.sleep (Backoff.waitAt { state := (0, s.startDelay), Next := fibonacciNext }
          (0, s.startDelay) i)]) (m - 1)
      = rounds (fun i => attemptEvents s (outcome f st i)
        ++ [.sleep (fibonacciWait s.startDelay i)]) (m - 1) := by
    apply rounds_congr
    intro i hi
    show _ ++ [Event.sleep (Backoff.waitAt _ _ i)] = _
    rw [waitAt_fibonacci s.startDelay (le_of_lt hdelay) hduration i]
  rw [hcongr] at hshape
  refine ⟨err, w, hTry, ?_, ?_, by rw [hlen]; exact hshape⟩
  · rw [hlen]
    have h1 := congrArg sleeps hshape
    rw [sleeps_append, sleeps_append, (results_attemptEvents s _).2.1,
      (results_map_fallback _).2.1,
      sleeps_rounds _ (fibonacciWait s.startDelay) (m - 1)] at h1
    · simpa using h1
    · intro i
      rw [sleeps_append, (results_attemptEvents s _).2.1]
      rfl
  · rw [hlen]
    intro i hi
    exact asksBackoff_failed s _ (hall i hi)

/-- Witness of C18 as amended: the policy of the tests with two retries and an
operation that always fails. -/
theorem backoff_waits_witness :
    (fibonacciWait twoRetriesPolicy.startDelay 0 = twoRetriesPolicy.startDelay ∧
      fibonacciWait twoRetriesPolicy.startDelay 1
        = wrapInt64 (twoRetriesPolicy.startDelay + twoRetriesPolicy.startDelay) ∧
      (∀ k, fibonacciWait twoRetriesPolicy.startDelay (k + 2)
        = wrapInt64 (fibonacciWait twoRetriesPolicy.startDelay (k + 1)
          + fibonacciWait twoRetriesPolicy.startDelay k)) ∧
      (∀ x : Int, -9223372036854775808 ≤ x → x ≤ 9223372036854775807 → wrapInt64 x = x) ∧
      (∀ x : Int, -9223372036854775808 ≤ wrapInt64 x ∧ wrapInt64 x ≤ 9223372036854775807 ∧
        (wrapInt64 x - x) % 18446744073709551616 = 0)) ∧
    ∃ err w, twoRetriesPolicy.Try (failNTimes 9 none) false 3 0 [] 100 = some (err, w) ∧
      sleeps w.trace
        = (List.range (attempts w.trace - 1)).map (fibonacciWait twoRetriesPolicy.startDelay) ∧
      (∀ i, i + 1 < attempts w.trace → ∃ e, outcome (failNTimes 9 none) 0 i = some e ∧
        (e.marked = none → errors.Cause (some e) ∉ twoRetriesPolicy.dontRetryErrorSet)) ∧
      w.trace
        = rounds (fun i => attemptEvents twoRetriesPolicy (outcome (failNTimes 9 none) 0 i)
            ++ [.sleep (fibonacciWait twoRetriesPolicy.startDelay i)]) (attempts w.trace - 1)
          ++ attemptEvents twoRetriesPolicy
            (outcome (failNTimes 9 none) 0 (attempts w.trace - 1))
          ++ (fallbackResults w.trace).map Event.fallback :=
  backoff_waits twoRetriesPolicy (failNTimes 9 none) false 0 [] 100 3 (by decide) (by decide)
    (by decide)

/-- C19 at its failing input: the template `p` is
`retry.Configure().DontRetryOn(e1).DontRetryOn(e2).DontRetryOn(e3)` (errors at
addresses 11, 12, 13), whose slice has length 3 and capacity 4. Right after
`a := p.DontRetryOn(e)` the set of `a` is that of `p` followed by `e` (address
21); once `b := p.DontRetryOn(f)` is built (`f` at address 22) the set of `a` ends
with `f`, not `e`: both calls wrote the fourth cell of the one backing array. The
set of `p` itself is as before. -/
theorem branches_share_backing_array :
    Memory.template.1.dontRetryErrorSet = { array := 2, len := 3, cap := 4 } ∧
    (Memory.template.1.load Memory.template.2).dontRetryErrorSet
      = [Memory.sentinel 11, Memory.sentinel 12, Memory.sentinel 13] ∧
    ((Memory.template.1.DontRetryOn Memory.template.2 [Memory.sentinel 21]).1.load
        (Memory.template.1.DontRetryOn Memory.template.2 [Memory.sentinel 21]).2).dontRetryErrorSet
      = [Memory.sentinel 11, Memory.sentinel 12, Memory.sentinel 13, Memory.sentinel 21] ∧
    ((Memory.branchTwice Memory.template.1 Memory.template.2 (Memory.sentinel 21)
          (Memory.sentinel 22)).1.load
        (Memory.branchTwice Memory.template.1 Memory.template.2 (Memory.sentinel 21)
          (Memory.sentinel 22)).2.2).dontRetryErrorSet
      = [Memory.sentinel 11, Memory.sentinel 12, Memory.sentinel 13, Memory.sentinel 22] ∧
    ((Memory.branchTwice Memory.template.1 Memory.template.2 (Memory.sentinel 21)
          (Memory.sentinel 22)).2.1.load
        (Memory.branchTwice Memory.template.1 Memory.template.2 (Memory.sentinel 21)
          (Memory.sentinel 22)).2.2).dontRetryErrorSet
      = [Memory.sentinel 11, Memory.sentinel 12, Memory.sentinel 13, Memory.sentinel 22] ∧
    (Memory.template.1.load
        (Memory.branchTwice Memory.template.1 Memory.template.2 (Memory.sentinel 21)
          (Memory.sentinel 22)).2.2).dontRetryErrorSet
      = [Memory.sentinel 11, Memory.sentinel 12, Memory.sentinel 13] := by
  decide

end GoAgain
